import Mathlib

/-!
Verification of the rollplayer (gm_chatbot) persistence and session core.

Shallow embedding of:
- `src/gm_chatbot/models/base.py`, `models/session.py`, `models/membership.py`,
  `models/action.py` (data model, YAML serialization contract),
- `src/gm_chatbot/artifacts/store.py` (atomic save),
- `src/gm_chatbot/services/session_service.py` (session state machine),
- `src/gm_chatbot/services/player_service.py` (`get_player_active_session`),
- `src/gm_chatbot/services/game_state_service.py` (action log and rollback).

Python mutable state is passed explicitly: each service operation maps a
state to a result-or-exception together with the successor state (a raised
exception leaves the on-disk state exactly as the source left it at the
raise site).  Timestamps (`datetime.utcnow()` / `utc_now()`) are supplied
as an explicit `now` argument.
-/

namespace RollPlayer

/-- Model of Python `datetime.datetime`: calendar fields plus an optional
UTC offset in minutes (`none` = naive datetime, `some 0` = `timezone.utc`). -/
structure PyDatetime where
  year : Nat
  month : Nat
  day : Nat
  hour : Nat
  minute : Nat
  second : Nat
  microsecond : Nat
  utcOffset : Option Int
deriving DecidableEq

/-- `lib/types.py` `SessionStatus` (`StrEnum`): active / paused / ended. -/
inductive SessionStatus where
  | active
  | paused
  | ended
deriving DecidableEq

/-- `lib/types.py` `MembershipRole` (`StrEnum`). -/
inductive MembershipRole where
  | player
  | gm
  | spectator
deriving DecidableEq

/-- `models/base.py` `ArtifactMetadata`. -/
structure ArtifactMetadata where
  id : String
  created_at : PyDatetime
  updated_at : PyDatetime
  version : Int
  schema_version : String
deriving DecidableEq

/-- `models/session.py` `SessionParticipant`. -/
structure SessionParticipant where
  player_id : String
  character_id : Option String
  joined_at : PyDatetime
  left_at : Option PyDatetime
  is_gm : Bool
deriving DecidableEq

/-- `models/session.py` `Session` (a `BaseArtifact`). -/
structure Session where
  metadata : ArtifactMetadata
  campaign_id : String
  session_number : Int
  name : Option String
  status : SessionStatus
  started_at : PyDatetime
  ended_at : Option PyDatetime
  started_by : String
  notes : Option String
  participants : List SessionParticipant
deriving DecidableEq

/-- `models/membership.py` `CampaignMembership` (a `BaseArtifact`). -/
structure CampaignMembership where
  metadata : ArtifactMetadata
  player_id : String
  campaign_id : String
  role : MembershipRole
  character_id : Option String
  joined_at : PyDatetime
deriving DecidableEq

/-- Python exceptions raised by the services: `FileNotFoundError` and
`ValueError` with their message. -/
inductive Err where
  | fileNotFound (msg : String)
  | valueError (msg : String)
deriving DecidableEq

/-- Keyed collections (directories of files, Python dicts): overwrite the
entry when the key exists, append it otherwise. -/
def alSet {α β : Type} [DecidableEq α] : List (α × β) → α → β → List (α × β)
  | [], k, v => [(k, v)]
  | e :: l, k, v => if e.1 = k then (k, v) :: l else e :: alSet l k v

/-- Keyed lookup (file read, dict `get`). -/
def alGet {α β : Type} [DecidableEq α] : List (α × β) → α → Option β
  | [], _ => none
  | e :: l, k => if e.1 = k then some e.2 else alGet l k

/-- Keyed removal (`Path.unlink`, dict `del`). -/
def alErase {α β : Type} [DecidableEq α] : List (α × β) → α → List (α × β)
  | [], _ => []
  | e :: l, k => if e.1 = k then l else e :: alErase l k

/-- A campaign's `sessions/` directory: YAML files keyed by filename, each
holding one parsed `Session`.  List order models the (unspecified)
`glob("*.yaml")` iteration order. -/
abbrev SessionsDir := List (String × Session)

/-- Overwrite-or-create a file in a directory listing
(`ArtifactStore.save_artifact` at an existing or fresh path). -/
def dirSet (d : SessionsDir) (fn : String) (s : Session) : SessionsDir :=
  alSet d fn s

/-- Scan the directory for the first file whose session has the given
metadata id — the loop shape shared by `get_session`, `update_session`,
`end_session`, `delete_session` and `join_session`. -/
def findSessionEntry (d : SessionsDir) (session_id : String) :
    Option (String × Session) :=
  d.find? (fun e => e.2.metadata.id = session_id)

/-- `SessionService.get_session`: first session whose id matches, else
`FileNotFoundError`. -/
def getSession (d : SessionsDir) (session_id : String) : Except Err Session :=
  match findSessionEntry d session_id with
  | some e => .ok e.2
  | none => .error (.fileNotFound "Session not found")

/-- Ordering used by `list_sessions`: `sorted(sessions, key=lambda s: s.session_number)`. -/
def bySessionNumber (a b : Session) : Prop :=
  a.session_number ≤ b.session_number

instance : DecidableRel bySessionNumber := fun a b =>
  inferInstanceAs (Decidable (a.session_number ≤ b.session_number))

instance : IsTotal Session bySessionNumber :=
  ⟨fun a b => Int.le_total a.session_number b.session_number⟩

instance : IsTrans Session bySessionNumber :=
  ⟨fun _ _ _ hab hbc => Int.le_trans hab hbc⟩

/-- `SessionService.list_sessions` (no status filter): load every session
file and sort by `session_number` (Python `sorted` is stable; so is
insertion sort). -/
def listSessions (d : SessionsDir) : List Session :=
  List.insertionSort bySessionNumber (d.map (fun e => e.2))

/-- Status test used by `get_active_session` and
`get_player_active_session`: `session.status in ["active", "paused"]`. -/
def isOpenStatus (s : Session) : Bool :=
  s.status = SessionStatus.active ∨ s.status = SessionStatus.paused

/-- `SessionService.get_active_session`: first active-or-paused session in
`list_sessions` order, else `None`. -/
def getActiveSession (d : SessionsDir) : Option Session :=
  (listSessions d).find? isOpenStatus

/-- Python `f"session_{session_number:03d}"` zero padding. -/
def pad3 (n : Int) : String :=
  if n < 10 ∧ 0 ≤ n then "00" ++ toString n
  else if n < 100 ∧ 0 ≤ n then "0" ++ toString n
  else toString n

/-- Python `max` over a possibly empty list (`None` when empty). -/
def pyMax : List Int → Option Int
  | [] => none
  | x :: xs => some (xs.foldl max x)

/-- `max(s.session_number for s in sessions)` over a campaign's sessions. -/
def sessionsMax (d : SessionsDir) : Option Int :=
  pyMax ((listSessions d).map (fun s => s.session_number))

/-- `SessionService.create_session`: refuse when the campaign already has
an active/paused session, otherwise assign
`max(existing session_number) + 1` (1 when none exist) and save
`session_{number:03d}.yaml`. -/
def createSession (now : PyDatetime) (newId : String)
    (campaign_id started_by : String) (name notes : Option String)
    (d : SessionsDir) : Except Err Session × SessionsDir :=
  match getActiveSession d with
  | some _ =>
      (.error (.valueError "Campaign already has an active/paused session"), d)
  | none =>
      let session_number : Int :=
        match sessionsMax d with
        | none => 1
        | some m => m + 1
      let session : Session :=
        { metadata :=
            { id := newId, created_at := now, updated_at := now,
              version := 1, schema_version := "1.0" }
          campaign_id := campaign_id
          session_number := session_number
          name := name
          status := .active
          started_at := now
          ended_at := none
          started_by := started_by
          notes := notes
          participants := [] }
      let filename := "session_" ++ pad3 session_number ++ ".yaml"
      (.ok session, dirSet d filename session)

/-- `SessionService.update_session`: reject when the *argument's* status is
`ended`, otherwise refresh `updated_at` and overwrite the first file whose
stored session has the same metadata id. -/
def updateSession (now : PyDatetime) (d : SessionsDir) (session : Session) :
    Except Err Session × SessionsDir :=
  if session.status = .ended then
    (.error (.valueError "Cannot modify an ended session"), d)
  else
    let s' := { session with metadata := { session.metadata with updated_at := now } }
    match findSessionEntry d s'.metadata.id with
    | some e => (.ok s', dirSet d e.1 s')
    | none => (.error (.fileNotFound "Session not found"), d)

/-- `end_session` participant pass: set `left_at` on every participant that
still has `left_at is None`. -/
def closeParticipants (now : PyDatetime) (ps : List SessionParticipant) :
    List SessionParticipant :=
  ps.map (fun p => if p.left_at = none then { p with left_at := some now } else p)

/-- The session value `end_session` persists: participants closed, status
`ended`, `ended_at` and `updated_at` stamped. -/
def endedCopy (now : PyDatetime) (s : Session) : Session :=
  { s with
      participants := closeParticipants now s.participants
      status := .ended
      ended_at := some now
      metadata := { s.metadata with updated_at := now } }

/-- `SessionService.end_session`: load by id (`FileNotFoundError` when
missing), return an already-ended session unchanged, otherwise close every
still-joined participant, set status `ended` and `ended_at`, and save. -/
def endSession (now : PyDatetime) (d : SessionsDir) (session_id : String) :
    Except Err Session × SessionsDir :=
  match findSessionEntry d session_id with
  | none => (.error (.fileNotFound "Session not found"), d)
  | some e =>
      let session := e.2
      if session.status = .ended then
        (.ok session, d)
      else
        (.ok (endedCopy now session), dirSet d e.1 (endedCopy now session))

/-- `SessionService.delete_session`: load by id, refuse unless the stored
status is `ended`, then unlink the file. -/
def deleteSession (d : SessionsDir) (session_id : String) :
    Except Err Unit × SessionsDir :=
  match findSessionEntry d session_id with
  | none => (.error (.fileNotFound "Session not found"), d)
  | some e =>
      if e.2.status = .ended then
        (.ok (), alErase d e.1)
      else
        (.error (.valueError "Cannot delete active/paused session"), d)

/-- A single campaign's on-disk state as seen by the session service: the
`sessions/` directory and the `memberships/` directory (membership files
are keyed by player id: `memberships/<player_id>.yaml`). -/
structure CampaignState where
  sessions : SessionsDir
  memberships : List (String × CampaignMembership)
deriving DecidableEq

/-- The whole `campaigns_root`: campaign directories keyed by campaign id.
List order models the (unspecified) `iterdir()` order. -/
abbrev SystemState := List (String × CampaignState)

/-- Look up a campaign directory; a missing directory behaves like an empty
one (every per-campaign scan in the source checks `exists()` or globs). -/
def getCampaign (sys : SystemState) (campaign_id : String) : CampaignState :=
  match alGet sys campaign_id with
  | some c => c
  | none => ⟨[], []⟩

/-- Write back a campaign's state (`save_artifact` creates the campaign
directory when missing, so this is overwrite-or-create). -/
def setCampaign (sys : SystemState) (campaign_id : String)
    (c : CampaignState) : SystemState :=
  alSet sys campaign_id c

/-- `SessionService._get_membership`: load `memberships/<player_id>.yaml`
when it exists. -/
def getMembership (c : CampaignState) (player_id : String) :
    Option CampaignMembership :=
  alGet c.memberships player_id

/-- The inner participant scan of `get_player_active_session`: a
participant entry for this player with `left_at is None`. -/
def hasActiveParticipant (player_id : String) (s : Session) : Bool :=
  s.participants.any (fun p => p.player_id = player_id ∧ p.left_at = none)

/-- `PlayerService.get_player_active_session`: scan every campaign
directory and every session file; return the first active-or-paused
session in which the player is a still-joined participant. -/
def getPlayerActiveSession (sys : SystemState) (player_id : String) :
    Option Session :=
  sys.findSome? (fun c =>
    c.2.sessions.findSome? (fun e =>
      if isOpenStatus e.2 ∧ hasActiveParticipant player_id e.2 then
        some e.2
      else
        none))

/-- Python truthiness of an `Optional[str]` (`if character_id:`). -/
def truthy : Option String → Bool
  | none => false
  | some s => s ≠ ""

/-- `SessionService.join_session`: validate the target session is active,
that the player is in no other active session system-wide, that a
membership exists, resolve the character id (explicit id must match the
membership's default for non-GMs; otherwise fall back to the default),
return unchanged when the player is already a still-joined participant,
else append a participant entry and save. -/
def joinSession (now : PyDatetime) (sys : SystemState)
    (campaign_id session_id player_id : String)
    (character_id : Option String) (is_gm : Bool) :
    Except Err Session × SystemState :=
  let cState := getCampaign sys campaign_id
  match findSessionEntry cState.sessions session_id with
  | none => (.error (.fileNotFound "Session not found"), sys)
  | some e =>
      let session := e.2
      if session.status ≠ .active then
        (.error (.valueError "Cannot join session: session is not active"), sys)
      else
        let conflict : Bool :=
          match getPlayerActiveSession sys player_id with
          | some active_session => active_session.metadata.id ≠ session_id
          | none => false
        if conflict then
          (.error (.valueError "Player is already in active session"), sys)
        else
          match getMembership cState player_id with
          | none =>
              (.error (.valueError "Player is not a member of campaign"), sys)
          | some membership =>
              if truthy character_id ∧ ¬ is_gm ∧
                  membership.character_id ≠ character_id then
                (.error (.valueError "Character is not assigned to player"), sys)
              else
                let character_id :=
                  if ¬ truthy character_id ∧ ¬ is_gm then
                    membership.character_id
                  else character_id
                if ¬ truthy character_id ∧ ¬ is_gm then
                  (.error (.valueError "Player has no default character assigned"), sys)
                else if hasActiveParticipant player_id session then
                  (.ok session, sys)
                else
                  let participant : SessionParticipant :=
                    { player_id := player_id
                      character_id := character_id
                      joined_at := now
                      left_at := none
                      is_gm := is_gm }
                  let s' : Session :=
                    { session with
                        participants := session.participants ++ [participant]
                        metadata := { session.metadata with updated_at := now } }
                  match findSessionEntry cState.sessions session_id with
                  | some e2 =>
                      (.ok s',
                        setCampaign sys campaign_id
                          { cState with sessions := dirSet cState.sessions e2.1 s' })
                  | none => (.error (.fileNotFound "Session not found"), sys)

/-- Primitive values carried by `StateChange.old_value` / `new_value`
(`int | str | bool | None`). -/
inductive PyVal where
  | vnone
  | vint (n : Int)
  | vstr (s : String)
  | vbool (b : Bool)
deriving DecidableEq

/-- `models/action.py` `StateChange`. -/
structure StateChange where
  target : String
  field : String
  old_value : PyVal
  new_value : PyVal
deriving DecidableEq

/-- `models/action.py` `ActionOutcome`. -/
structure ActionOutcome where
  success : Bool
  description : String
  state_changes : List StateChange
  narrative : String
deriving DecidableEq

/-- `models/dice.py` `DiceResult`. -/
structure DiceResult where
  expression : String
  total : Int
  rolls : List Int
  modifier : Int
  breakdown : String
  timestamp : PyDatetime
  seed : Option String
deriving DecidableEq

/-- `models/action.py` `GameAction` actor type (`Literal["player", "gm"]`). -/
inductive ActorType where
  | player
  | gm
deriving DecidableEq

/-- `models/action.py` `GameAction`. -/
structure GameAction where
  action_id : String
  timestamp : PyDatetime
  actor_id : String
  actor_type : ActorType
  action_type : String
  target_ids : List String
  parameters : List (String × PyVal)
  dice_results : List DiceResult
  outcome : ActionOutcome
deriving DecidableEq

/-- A Python object as a tree of named attributes (shallow embedding of the
`getattr`/`setattr` chains `apply_state_change` performs on loaded
character sheets). -/
inductive PyObj where
  | leaf (v : PyVal)
  | node (attrs : List (String × PyObj))

/-- `getattr(obj, part)`: missing attributes (or attribute access on a
primitive) raise `AttributeError`. -/
def getAttr : PyObj → String → Except String PyObj
  | .node attrs, a =>
      match attrs.find? (fun e => e.1 = a) with
      | some e => .ok e.2
      | none => .error "AttributeError"
  | .leaf _, _ => .error "AttributeError"

/-- `setattr(obj, part, value)` on a pydantic model: replace an existing
attribute (unknown attributes are rejected by `extra="forbid"` /
`validate_assignment`). -/
def setAttrVal : PyObj → String → PyVal → Except String PyObj
  | .node attrs, a, v =>
      if attrs.any (fun e => e.1 = a) then
        .ok (.node (attrs.map (fun e => if e.1 = a then (a, .leaf v) else e)))
      else
        .error "ValidationError"
  | .leaf _, _, _ => .error "AttributeError"

/-- Replace an existing attribute with an updated sub-object (functional
rendering of the in-place mutation of the object returned by `getattr`). -/
def setAttrObj : PyObj → String → PyObj → Except String PyObj
  | .node attrs, a, o =>
      if attrs.any (fun e => e.1 = a) then
        .ok (.node (attrs.map (fun e => if e.1 = a then (a, o) else e)))
      else
        .error "AttributeError"
  | .leaf _, _, _ => .error "AttributeError"

/-- The dotted-path update of `apply_state_change`:
walk `parts[:-1]` with `getattr`, then `setattr` the last part. -/
def setPath (obj : PyObj) : List String → PyVal → Except String PyObj
  | [], _ => .error "AttributeError"
  | [a], v => setAttrVal obj a v
  | a :: rest, v => do
      let child ← getAttr obj a
      let child' ← setPath child rest v
      setAttrObj obj a child'

/-- `GameState` (`game_state_service.py`): per-campaign derived state. -/
structure GameState where
  campaign_id : String
  in_combat : Bool
  initiative_order : List String
  current_turn : Int
  characters : List (String × PyObj)

/-- `GameState.__init__`. -/
def GameState.fresh (campaign_id : String) : GameState :=
  { campaign_id := campaign_id
    in_combat := false
    initiative_order := []
    current_turn := 0
    characters := [] }

/-- Apply one `StateChange` to one `GameState`
(the body of `GameStateManager.apply_state_change` once the state is in
hand): only targets already present in `state.characters` are updated; a
bad path or value surfaces the underlying Python exception. -/
def applyChangeToState (st : GameState) (sc : StateChange) :
    GameState × Option String :=
  match st.characters.find? (fun e => e.1 = sc.target) with
  | some e =>
      match setPath e.2 (sc.field.splitOn ".") sc.new_value with
      | .ok ch' =>
          ({ st with characters :=
              st.characters.map (fun x => if x.1 = sc.target then (sc.target, ch') else x) },
            none)
      | .error msg => (st, some msg)
  | none => (st, none)

/-- `GameStateManager._states`: campaign id to in-memory state. -/
abbrev ManagerStates := List (String × GameState)

/-- `GameStateManager.get_state`: return the stored state, creating (and
storing) a fresh one when absent. -/
def managerGetState (sts : ManagerStates) (campaign_id : String) :
    GameState × ManagerStates :=
  match alGet sts campaign_id with
  | some st => (st, sts)
  | none =>
      (GameState.fresh campaign_id,
        sts ++ [(campaign_id, GameState.fresh campaign_id)])

/-- Store a state under a campaign id
(`self.manager._states[campaign_id] = state`). -/
def managerSetState (sts : ManagerStates) (campaign_id : String)
    (st : GameState) : ManagerStates :=
  alSet sts campaign_id st

/-- `GameStateManager.apply_state_change`: fetch (or create) the campaign's
state and apply the change to it in place; an exception propagates with
the states as mutated so far. -/
def applyStateChange (sts : ManagerStates) (campaign_id : String)
    (sc : StateChange) : ManagerStates × Option String :=
  let (st, sts1) := managerGetState sts campaign_id
  match applyChangeToState st sc with
  | (st', none) => (managerSetState sts1 campaign_id st', none)
  | (_, some msg) => (sts1, some msg)

/-- Replay a list of actions through `apply_state_change` (the rebuild loop
of `rollback_action`), stopping at the first exception. -/
def replayOnto (sts : ManagerStates) (campaign_id : String) :
    List GameAction → ManagerStates × Option String
  | [] => (sts, none)
  | a :: rest =>
      match replayChanges sts campaign_id a.outcome.state_changes with
      | (sts1, none) => replayOnto sts1 campaign_id rest
      | (sts1, some msg) => (sts1, some msg)
where
  replayChanges (sts : ManagerStates) (campaign_id : String) :
      List StateChange → ManagerStates × Option String
    | [] => (sts, none)
    | sc :: rest =>
        match applyStateChange sts campaign_id sc with
        | (sts1, none) => replayChanges sts1 campaign_id rest
        | (sts1, some msg) => (sts1, some msg)

/-- Replaying an action prefix in original order starting from a fresh
initial `GameState` — the specification's reference semantics for
rollback ("rebuilds state from scratch by replaying the retained history
in original order"). -/
def replayFromScratch (campaign_id : String) (actions : List GameAction) :
    GameState × Option String :=
  let (sts, err) :=
    replayOnto [(campaign_id, GameState.fresh campaign_id)] campaign_id actions
  ((managerGetState sts campaign_id).1, err)

/-- `GameStateService` mutable state: the manager's states and the
in-memory `_action_history`. -/
structure GSService where
  states : ManagerStates
  history : List (String × List GameAction)

/-- `self._action_history.get(campaign_id, [])`. -/
def histGet (h : List (String × List GameAction)) (campaign_id : String) :
    List GameAction :=
  match alGet h campaign_id with
  | some v => v
  | none => []

/-- `self._action_history[campaign_id] = v`. -/
def histSet (h : List (String × List GameAction)) (campaign_id : String)
    (v : List GameAction) : List (String × List GameAction) :=
  alSet h campaign_id v

/-- `GameStateService.rollback_action`: locate the action in history
(`ValueError` when absent), truncate the history to `history[: index + 1]`,
run the rebuild loop (which, in the source, applies the changes to the
manager's *current* state for the campaign), then store the freshly
constructed `GameState` and return it. -/
def rollbackAction (svc : GSService) (campaign_id action_id : String) :
    Except Err GameState × GSService :=
  let history := histGet svc.history campaign_id
  match history.findIdx? (fun a => a.action_id = action_id) with
  | none => (.error (.valueError "Action not found in history"), svc)
  | some i =>
      let hist' := history.take (i + 1)
      let svc1 : GSService := { svc with history := histSet svc.history campaign_id hist' }
      let state := GameState.fresh campaign_id
      match replayOnto svc1.states campaign_id hist' with
      | (sts2, none) =>
          (.ok state, { svc1 with states := managerSetState sts2 campaign_id state })
      | (sts2, some msg) =>
          (.error (.valueError msg), { svc1 with states := sts2 })

/-- Paths for the artifact store model: a stem plus a suffix, so that
`Path.with_suffix(".tmp")` is exact. -/
structure FPath where
  stem : String
  suffix : String
deriving DecidableEq

/-- `Path.with_suffix`. -/
def FPath.withSuffix (p : FPath) (s : String) : FPath :=
  { p with suffix := s }

/-- A directory of files: path to full byte content. -/
abbrev FileSys := List (FPath × String)

/-- Read a file's content if the path exists. -/
def fsGet (fs : FileSys) (p : FPath) : Option String :=
  alGet fs p

/-- Create or truncate-and-overwrite a file. -/
def fsSet (fs : FileSys) (p : FPath) (content : String) : FileSys :=
  alSet fs p content

/-- `Path.unlink`. -/
def fsErase (fs : FileSys) (p : FPath) : FileSys :=
  alErase fs p

/-- The steps of `ArtifactStore.save_artifact` that run after the
temporary file has been created, in source order: `flock(LOCK_EX)`,
`artifact.to_yaml()` (evaluated as the argument of `f.write`), the write
itself, `f.flush()`, `flock(LOCK_UN)`, and `temp_path.replace(file_path)`. -/
inductive SaveStep where
  | lockEx
  | serialize
  | writeBytes
  | flushFile
  | unlock
  | rename
deriving DecidableEq

/-- The `except` handler of `save_artifact`: unlink the temp file when it
exists, and re-raise. -/
def saveCleanup (fs : FileSys) (temp : FPath) : FileSys :=
  if (fsGet fs temp).isSome then fsErase fs temp else fs

/-- `ArtifactStore.save_artifact` with an injected failure point.
`fail = none` is the successful run; `fail = some step` makes that step
raise after its predecessors completed.  `partialContent` is whatever
prefix a failing write managed to emit.  Returns the resulting directory
and the propagated exception, if any. -/
def saveArtifact (content : String) (file_path : FPath)
    (fail : Option SaveStep) (partialContent : String) (fs : FileSys) :
    FileSys × Option SaveStep :=
  let temp_path := file_path.withSuffix ".tmp"
  let fs1 := fsSet fs temp_path ""
  match fail with
  | some .lockEx => (saveCleanup fs1 temp_path, some .lockEx)
  | some .serialize => (saveCleanup fs1 temp_path, some .serialize)
  | some .writeBytes =>
      (saveCleanup (fsSet fs1 temp_path partialContent) temp_path, some .writeBytes)
  | some .flushFile =>
      (saveCleanup (fsSet fs1 temp_path content) temp_path, some .flushFile)
  | some .unlock =>
      (saveCleanup (fsSet fs1 temp_path content) temp_path, some .unlock)
  | some .rename =>
      (saveCleanup (fsSet fs1 temp_path content) temp_path, some .rename)
  | none =>
      (fsSet (fsErase (fsSet fs1 temp_path content) temp_path) file_path content, none)

/-! Serialization contract (`models/base.py`).  `to_yaml` is
`yaml.safe_dump(self.model_dump(mode="json"), ...)` and `from_yaml` is
`yaml.safe_load` followed by `_parse_datetime_strings` and
`model_validate`.  `safe_dump`/`safe_load` round-trip the JSON-mode value
tree (strings that would resolve to another YAML type are quoted on dump),
so the text layer is modelled as the identity on the tree and the
interesting transformations — datetimes to ISO strings on dump, the
string-sniffing datetime recovery plus strict validation on load — are
modelled exactly. -/

/-- Gregorian leap year. -/
def isLeap (y : Nat) : Bool :=
  y % 4 = 0 ∧ (y % 100 ≠ 0 ∨ y % 400 = 0)

/-- Days in a month, as `datetime` enforces. -/
def daysInMonth (y m : Nat) : Nat :=
  if m = 2 then (if isLeap y then 29 else 28)
  else if m = 4 ∨ m = 6 ∨ m = 9 ∨ m = 11 then 30
  else 31

/-- Python `datetime`'s own field invariants. -/
def dtRanges (d : PyDatetime) : Prop :=
  1 ≤ d.year ∧ d.year ≤ 9999 ∧
  1 ≤ d.month ∧ d.month ≤ 12 ∧
  1 ≤ d.day ∧ d.day ≤ daysInMonth d.year d.month ∧
  d.hour ≤ 23 ∧ d.minute ≤ 59 ∧ d.second ≤ 59 ∧
  d.microsecond ≤ 999999

instance (d : PyDatetime) : Decidable (dtRanges d) := by
  unfold dtRanges; infer_instance

/-- The ASCII digit character for `k ≤ 9`. -/
def digitChar (k : Nat) : Char := Char.ofNat (48 + k)

/-- `%02d` (for in-range values). -/
def pad2L (n : Nat) : List Char := [digitChar (n / 10), digitChar (n % 10)]

/-- `%04d` (for in-range values). -/
def pad4L (n : Nat) : List Char :=
  [digitChar (n / 1000 % 10), digitChar (n / 100 % 10),
   digitChar (n / 10 % 10), digitChar (n % 10)]

/-- `%06d` (for in-range values). -/
def pad6L (n : Nat) : List Char :=
  [digitChar (n / 100000 % 10), digitChar (n / 10000 % 10),
   digitChar (n / 1000 % 10), digitChar (n / 100 % 10),
   digitChar (n / 10 % 10), digitChar (n % 10)]

/-- Offset tail of the serialized form: nothing for a naive datetime, `Z`
for UTC, `±HH:MM` otherwise (pydantic JSON-mode datetime serialization). -/
def formatOffsetL : Option Int → List Char
  | none => []
  | some o =>
      if o = 0 then ['Z']
      else
        (if o < 0 then ['-'] else ['+']) ++
          pad2L (o.natAbs / 60) ++ [':'] ++ pad2L (o.natAbs % 60)

/-- pydantic `model_dump(mode="json")` serialization of a datetime:
`YYYY-MM-DDTHH:MM:SS`, fractional seconds only when non-zero, then the
offset tail. -/
def formatDtL (d : PyDatetime) : List Char :=
  pad4L d.year ++ ['-'] ++ pad2L d.month ++ ['-'] ++ pad2L d.day ++ ['T'] ++
  pad2L d.hour ++ [':'] ++ pad2L d.minute ++ [':'] ++ pad2L d.second ++
  (if d.microsecond = 0 then [] else '.' :: pad6L d.microsecond) ++
  formatOffsetL d.utcOffset

/-- String form of the serialized datetime. -/
def formatDt (d : PyDatetime) : String := ⟨formatDtL d⟩

/-- ASCII digit value. -/
def digitVal? (c : Char) : Option Nat :=
  if 48 ≤ c.toNat ∧ c.toNat ≤ 57 then some (c.toNat - 48) else none

/-- Read exactly `k` digits, most significant first. -/
def readDigitsExact : Nat → Nat → List Char → Option (Nat × List Char)
  | 0, acc, l => some (acc, l)
  | k + 1, acc, c :: l =>
      match digitVal? c with
      | some dv => readDigitsExact k (acc * 10 + dv) l
      | none => none
  | _ + 1, _, [] => none

/-- Require one specific character. -/
def expectCh (c : Char) : List Char → Option (List Char)
  | x :: l => if x = c then some l else none
  | [] => none

/-- Read up to `fuel` leading digits: value, count, rest. -/
def readFracAux : Nat → Nat → Nat → List Char → Nat × Nat × List Char
  | 0, acc, cnt, l => (acc, cnt, l)
  | fuel + 1, acc, cnt, l =>
      match l with
      | c :: rest =>
          match digitVal? c with
          | some dv => readFracAux fuel (acc * 10 + dv) (cnt + 1) rest
          | none => (acc, cnt, l)
      | [] => (acc, cnt, [])

/-- Drop leading digits (`fromisoformat` truncates fractional digits past
the sixth). -/
def skipDigits : List Char → List Char
  | c :: l => if (digitVal? c).isSome then skipDigits l else c :: l
  | [] => []

/-- Fractional seconds after the `.`: one or more digits, scaled to
microseconds, digits beyond six truncated. -/
def readFrac (l : List Char) : Option (Nat × List Char) :=
  let r := readFracAux 6 0 0 l
  if r.2.1 = 0 then none
  else if r.2.1 = 6 then some (r.1, skipDigits r.2.2)
  else some (r.1 * 10 ^ (6 - r.2.1), r.2.2)

/-- Offset tail, which must consume the rest of the string: empty (naive),
`Z`, or `±HH:MM` (the dashed-calendar subset of `fromisoformat`). -/
def readOffsetEnd : List Char → Option (Option Int)
  | [] => some none
  | ['Z'] => some (some 0)
  | c :: l =>
      if c = '+' ∨ c = '-' then
        match readDigitsExact 2 0 l with
        | some (hh, l1) =>
            match expectCh ':' l1 with
            | some l2 =>
                match readDigitsExact 2 0 l2 with
                | some (mm, []) =>
                    if hh ≤ 23 ∧ mm ≤ 59 then
                      some (some (if c = '-' then -(hh * 60 + mm : Int)
                                  else (hh * 60 + mm : Int)))
                    else none
                | _ => none
            | none => none
        | none => none
      else none

/-- Time-of-day: `HH[:MM[:SS[.ffffff]]]` followed by the offset tail. -/
def readTimeTail (l : List Char) : Option (Nat × Nat × Nat × Nat × Option Int) := do
  let (hh, l1) ← readDigitsExact 2 0 l
  if hh ≤ 23 then
    match l1 with
    | ':' :: l2 => do
        let (mm, l3) ← readDigitsExact 2 0 l2
        if mm ≤ 59 then
          match l3 with
          | ':' :: l4 => do
              let (ss, l5) ← readDigitsExact 2 0 l4
              if ss ≤ 59 then
                match l5 with
                | '.' :: l6 => do
                    let (us, l7) ← readFrac l6
                    let off ← readOffsetEnd l7
                    pure (hh, mm, ss, us, off)
                | _ => do
                    let off ← readOffsetEnd l5
                    pure (hh, mm, ss, 0, off)
              else none
          | _ => do
              let off ← readOffsetEnd l3
              pure (hh, mm, 0, 0, off)
        else none
    | _ => do
        let off ← readOffsetEnd l1
        pure (hh, 0, 0, 0, off)
  else none

/-- `datetime.fromisoformat` (dashed calendar-date subset):
`YYYY-MM-DD`, optionally followed by `T` or a space and a time. -/
def fromIsoL (l : List Char) : Option PyDatetime := do
  let (y, l1) ← readDigitsExact 4 0 l
  let l2 ← expectCh '-' l1
  let (mo, l3) ← readDigitsExact 2 0 l2
  let l4 ← expectCh '-' l3
  let (dd, l5) ← readDigitsExact 2 0 l4
  if 1 ≤ y ∧ 1 ≤ mo ∧ mo ≤ 12 ∧ 1 ≤ dd ∧ dd ≤ daysInMonth y mo then
    match l5 with
    | [] => pure ⟨y, mo, dd, 0, 0, 0, 0, none⟩
    | c :: l6 =>
        if c = 'T' ∨ c = ' ' then do
          let (hh, mm, ss, us, off) ← readTimeTail l6
          pure ⟨y, mo, dd, hh, mm, ss, us, off⟩
        else none
  else none

/-- Python `str.replace("Z", "+00:00")` — every occurrence of the
one-character pattern is replaced. -/
def replaceZL : List Char → List Char
  | [] => []
  | c :: l =>
      (if c = 'Z' then ['+', '0', '0', ':', '0', '0'] else [c]) ++ replaceZL l

/-- The string branch of `BaseArtifact._parse_datetime_strings`: only
strings containing `T` and longer than 10 characters are sniffed; a
trailing `Z` is first replaced by `+00:00`, with a naive-parse fallback
that drops the `Z`; an unparseable string is kept as a string. -/
def tryParseDatetimeL (l : List Char) : Option PyDatetime :=
  if l.contains 'T' ∧ l.length > 10 then
    if l.getLast? = some 'Z' then
      match fromIsoL (replaceZL l) with
      | some d => some d
      | none => fromIsoL l.dropLast
    else fromIsoL l
  else none

/-- String-level entry point of the datetime sniffing. -/
def parseDatetimeString (s : String) : Option PyDatetime :=
  tryParseDatetimeL s.data

/-- JSON-mode value tree produced by `model_dump(mode="json")` (and
preserved by `yaml.safe_dump` / `yaml.safe_load`). -/
inductive YVal where
  | ynull
  | ybool (b : Bool)
  | yint (n : Int)
  | ystr (s : String)
  | ylist (xs : List YVal)
  | ymap (fields : List (String × YVal))

/-- Value tree after `_parse_datetime_strings`: datetime-looking strings
have become datetime objects. -/
inductive PVal where
  | pnull
  | pbool (b : Bool)
  | pint (n : Int)
  | pstr (s : String)
  | pdt (d : PyDatetime)
  | plist (xs : List PVal)
  | pmap (fields : List (String × PVal))

mutual

/-- `BaseArtifact._parse_datetime_strings`: recursive walk over the loaded
value tree (dict keys are left untouched). -/
def parseDtStrings : YVal → PVal
  | .ynull => .pnull
  | .ybool b => .pbool b
  | .yint n => .pint n
  | .ystr s =>
      match parseDatetimeString s with
      | some d => .pdt d
      | none => .pstr s
  | .ylist xs => .plist (parseDtStringsList xs)
  | .ymap fs => .pmap (parseDtStringsFields fs)

/-- List case of the walk. -/
def parseDtStringsList : List YVal → List PVal
  | [] => []
  | x :: xs => parseDtStrings x :: parseDtStringsList xs

/-- Dict case of the walk (values only). -/
def parseDtStringsFields : List (String × YVal) → List (String × PVal)
  | [] => []
  | (k, v) :: fs => (k, parseDtStrings v) :: parseDtStringsFields fs

end

/-- `StrEnum` serialization of a session status. -/
def statusStr : SessionStatus → String
  | .active => "active"
  | .paused => "paused"
  | .ended => "ended"

/-- `SessionStatus(v)` — the `StrEnum` constructor used by
`_validate_session_status`. -/
def statusOfStr : String → Except String SessionStatus
  | "active" => .ok .active
  | "paused" => .ok .paused
  | "ended" => .ok .ended
  | _ => .error "is not a valid SessionStatus"

/-- Serialize an optional string. -/
def yOptStr : Option String → YVal
  | none => .ynull
  | some s => .ystr s

/-- Serialize a datetime (JSON mode turns it into its ISO string). -/
def yDt (d : PyDatetime) : YVal := .ystr (formatDt d)

/-- Serialize an optional datetime. -/
def yOptDt : Option PyDatetime → YVal
  | none => .ynull
  | some d => yDt d

/-- `model_dump(mode="json")` of `ArtifactMetadata` (definition order). -/
def metadataToJson (m : ArtifactMetadata) : YVal :=
  .ymap
    [("id", .ystr m.id),
     ("created_at", yDt m.created_at),
     ("updated_at", yDt m.updated_at),
     ("version", .yint m.version),
     ("schema_version", .ystr m.schema_version)]

/-- `model_dump(mode="json")` of `SessionParticipant`. -/
def participantToJson (p : SessionParticipant) : YVal :=
  .ymap
    [("player_id", .ystr p.player_id),
     ("character_id", yOptStr p.character_id),
     ("joined_at", yDt p.joined_at),
     ("left_at", yOptDt p.left_at),
     ("is_gm", .ybool p.is_gm)]

/-- `Session.to_yaml` up to the (faithful) YAML text layer:
`model_dump(mode="json")` in field-definition order. -/
def sessionToJson (s : Session) : YVal :=
  .ymap
    [("metadata", metadataToJson s.metadata),
     ("campaign_id", .ystr s.campaign_id),
     ("session_number", .yint s.session_number),
     ("name", yOptStr s.name),
     ("status", .ystr (statusStr s.status)),
     ("started_at", yDt s.started_at),
     ("ended_at", yOptDt s.ended_at),
     ("started_by", .ystr s.started_by),
     ("notes", yOptStr s.notes),
     ("participants", .ylist (s.participants.map participantToJson))]

/-! The validation side (`model_validate`).  `Session` inherits
`strict=True, extra="forbid"` from `BaseArtifact`; nested
`ArtifactMetadata` and `SessionParticipant` are plain `BaseModel`s.
Every artifact dump contains every field, so field defaults never fire on
a loaded dump; the validators below therefore require each declared key. -/

/-- Civil-days algorithm (days since 1970-01-01) for `astimezone`. -/
def civilToDays (y m d : Nat) : Int :=
  let y' : Int := if m ≤ 2 then (y : Int) - 1 else (y : Int)
  let era : Int := (if 0 ≤ y' then y' else y' - 399).fdiv 400
  let yoe : Int := y' - era * 400
  let mp : Int := ((m : Int) + 9) % 12
  let doy : Int := (153 * mp + 2).fdiv 5 + (d : Int) - 1
  let doe : Int := yoe * 365 + yoe.fdiv 4 - yoe.fdiv 100 + doy
  era * 146097 + doe - 719468

/-- Inverse of `civilToDays`. -/
def daysToCivil (z : Int) : Nat × Nat × Nat :=
  let z' := z + 719468
  let era : Int := (if 0 ≤ z' then z' else z' - 146096).fdiv 146097
  let doe : Int := z' - era * 146097
  let yoe : Int := (doe - doe.fdiv 1460 + doe.fdiv 36524 - doe.fdiv 146096).fdiv 365
  let y : Int := yoe + era * 400
  let doy : Int := doe - (365 * yoe + yoe.fdiv 4 - yoe.fdiv 100)
  let mp : Int := (5 * doy + 2).fdiv 153
  let d : Int := doy - (153 * mp + 2).fdiv 5 + 1
  let m : Int := if mp < 10 then mp + 3 else mp - 9
  let y' : Int := if m ≤ 2 then y + 1 else y
  (y'.toNat, m.toNat, d.toNat)

/-- Microseconds since the epoch of the clock reading (ignoring the
offset). -/
def dtClockMicro (d : PyDatetime) : Int :=
  civilToDays d.year d.month d.day * 86400000000 +
    (d.hour : Int) * 3600000000 + (d.minute : Int) * 60000000 +
    (d.second : Int) * 1000000 + (d.microsecond : Int)

/-- Rebuild a UTC datetime from microseconds since the epoch. -/
def microToUtcDt (t : Int) : PyDatetime :=
  let days := t.fdiv 86400000000
  let rem := (t - days * 86400000000).toNat
  let ymd := daysToCivil days
  { year := ymd.1, month := ymd.2.1, day := ymd.2.2
    hour := rem / 3600000000
    minute := rem / 60000000 % 60
    second := rem / 1000000 % 60
    microsecond := rem % 1000000
    utcOffset := some 0 }

/-- `_ensure_utc_validator` on a datetime: a naive value is stamped UTC
in place; an aware value is converted with `astimezone(UTC)` (which is
the identity on an already-UTC value). -/
def ensureUtc (d : PyDatetime) : PyDatetime :=
  match d.utcOffset with
  | none => { d with utcOffset := some 0 }
  | some o =>
      if o = 0 then { d with utcOffset := some 0 }
      else microToUtcDt (dtClockMicro d - o * 60000000)

/-- Strict/lax `str` field. -/
def vStr : PVal → Except String String
  | .pstr s => .ok s
  | _ => .error "Input should be a valid string"

/-- `str` field with `min_length=1`. -/
def vStrMin1 (v : PVal) : Except String String := do
  let s ← vStr v
  if s = "" then .error "String should have at least 1 character" else .ok s

/-- `str | None` field. -/
def vOptStr : PVal → Except String (Option String)
  | .pnull => .ok none
  | .pstr s => .ok (some s)
  | _ => .error "Input should be a valid string"

/-- Plain `datetime` field (metadata): after the sniffing walk only real
datetime values validate. -/
def vDt : PVal → Except String PyDatetime
  | .pdt d => .ok d
  | .pstr s =>
      match fromIsoL s.data with
      | some d => .ok d
      | none => .error "Input should be a valid datetime"
  | _ => .error "Input should be a valid datetime"

/-- `UTC_DATETIME` field: `BeforeValidator(_ensure_utc_validator)` then
the datetime check (a non-datetime, non-None value makes the validator
itself raise `AttributeError`, surfaced as a validation error). -/
def vUtcDt : PVal → Except String PyDatetime
  | .pdt d => .ok (ensureUtc d)
  | _ => .error "Input should be a valid datetime"

/-- `UTC_DATETIME | None` field. -/
def vOptUtcDt : PVal → Except String (Option PyDatetime)
  | .pnull => .ok none
  | .pdt d => .ok (some (ensureUtc d))
  | _ => .error "Input should be a valid datetime"

/-- `int` field with `ge` lower bound. -/
def vIntGe (lo : Int) : PVal → Except String Int
  | .pint n => if lo ≤ n then .ok n else .error "Input should be greater than or equal"
  | _ => .error "Input should be a valid integer"

/-- `bool` field. -/
def vBool : PVal → Except String Bool
  | .pbool b => .ok b
  | _ => .error "Input should be a valid boolean"

/-- `status` field: `BeforeValidator(_validate_session_status)` converts a
string through the `SessionStatus` constructor; any other value reaches
the strict enum check and fails. -/
def vStatus : PVal → Except String SessionStatus
  | .pstr s => statusOfStr s
  | _ => .error "Input should be an instance of SessionStatus"

/-- Fetch a field of a validated dict. -/
def getField (fs : List (String × PVal)) (k : String) : Except String PVal :=
  match fs.find? (fun e => e.1 = k) with
  | some e => .ok e.2
  | none => .error "Field required"

/-- `ArtifactMetadata.model_validate` (plain `BaseModel`: extras ignored). -/
def metadataValidate : PVal → Except String ArtifactMetadata
  | .pmap fs => do
      let id ← vStr (← getField fs "id")
      let created_at ← vDt (← getField fs "created_at")
      let updated_at ← vDt (← getField fs "updated_at")
      let version ← vIntGe 1 (← getField fs "version")
      let schema_version ← vStr (← getField fs "schema_version")
      .ok ⟨id, created_at, updated_at, version, schema_version⟩
  | _ => .error "Input should be a valid dictionary"

/-- `SessionParticipant.model_validate` (plain `BaseModel`). -/
def participantValidate : PVal → Except String SessionParticipant
  | .pmap fs => do
      let player_id ← vStrMin1 (← getField fs "player_id")
      let character_id ← vOptStr (← getField fs "character_id")
      let joined_at ← vUtcDt (← getField fs "joined_at")
      let left_at ← vOptUtcDt (← getField fs "left_at")
      let is_gm ← vBool (← getField fs "is_gm")
      .ok ⟨player_id, character_id, joined_at, left_at, is_gm⟩
  | _ => .error "Input should be a valid dictionary"

/-- Validate every element of the `participants` list. -/
def participantsValidate : List PVal → Except String (List SessionParticipant)
  | [] => .ok []
  | v :: vs => do
      let p ← participantValidate v
      let ps ← participantsValidate vs
      .ok (p :: ps)

/-- The declared fields of `Session`, for `extra="forbid"`. -/
def sessionFieldKeys : List String :=
  ["metadata", "campaign_id", "session_number", "name", "status",
   "started_at", "ended_at", "started_by", "notes", "participants"]

/-- `Session.model_validate` (strict, extras forbidden). -/
def sessionValidate : PVal → Except String Session
  | .pmap fs =>
      if fs.all (fun e => sessionFieldKeys.contains e.1) then do
        let metadata ← metadataValidate (← getField fs "metadata")
        let campaign_id ← vStrMin1 (← getField fs "campaign_id")
        let session_number ← vIntGe 1 (← getField fs "session_number")
        let name ← vOptStr (← getField fs "name")
        let status ← vStatus (← getField fs "status")
        let started_at ← vUtcDt (← getField fs "started_at")
        let ended_at ← vOptUtcDt (← getField fs "ended_at")
        let started_by ← vStrMin1 (← getField fs "started_by")
        let notes ← vOptStr (← getField fs "notes")
        let participants ←
          match (← getField fs "participants") with
          | .plist xs => participantsValidate xs
          | _ => .error "Input should be a valid list"
        .ok ⟨metadata, campaign_id, session_number, name, status,
              started_at, ended_at, started_by, notes, participants⟩
      else .error "Extra inputs are not permitted"
  | _ => .error "Input should be a valid dictionary"

/-- `Session.from_yaml` up to the YAML text layer: the datetime-sniffing
walk followed by strict validation. -/
def sessionFromYaml (v : YVal) : Except String Session :=
  sessionValidate (parseDtStrings v)

/-! Trace semantics for session numbering (C7): the operations
`create_session` / `end_session` / `delete_session` applied in sequence to
one campaign's directory. -/

/-- One session-service call in a trace. -/
inductive SessionOp where
  | create (now : PyDatetime) (newId started_by : String)
      (name notes : Option String)
  | endOp (now : PyDatetime) (session_id : String)
  | delOp (session_id : String)

/-- Run a trace against one campaign's directory, collecting each
successfully assigned session number in call order. -/
def runOps (campaign_id : String) : List SessionOp → SessionsDir →
    SessionsDir × List Int
  | [], d => (d, [])
  | op :: ops, d =>
      match op with
      | .create now nid sb nm nt =>
          match createSession now nid campaign_id sb nm nt d with
          | (.ok s, d2) =>
              let r := runOps campaign_id ops d2
              (r.1, s.session_number :: r.2)
          | (.error _, d2) => runOps campaign_id ops d2
      | .endOp now sid => runOps campaign_id ops (endSession now d sid).2
      | .delOp sid => runOps campaign_id ops (deleteSession d sid).2

/-- The amended C7 side condition: every deletion in the trace targets an
*earlier* session — one whose `session_number` is strictly below the
campaign's current maximum. -/
def deletesOnlyEarlier (campaign_id : String) : List SessionOp →
    SessionsDir → Prop
  | [], _ => True
  | op :: ops, d =>
      match op with
      | .create now nid sb nm nt =>
          deletesOnlyEarlier campaign_id ops
            (createSession now nid campaign_id sb nm nt d).2
      | .endOp now sid =>
          deletesOnlyEarlier campaign_id ops (endSession now d sid).2
      | .delOp sid =>
          (∀ e ∈ d, e.2.metadata.id = sid →
            ∀ m, sessionsMax d = some m → e.2.session_number < m) ∧
          deletesOnlyEarlier campaign_id ops (deleteSession d sid).2

/-- "Numbered strictly below the current maximum" is decidable: the
maximum either exists (compare against it) or does not (vacuous). -/
instance decBelowMax (d : SessionsDir) (k : Int) :
    Decidable (∀ m, sessionsMax d = some m → k < m) :=
  match sessionsMax d with
  | none => isTrue (fun _ hm => Option.noConfusion hm)
  | some v =>
      if hv : k < v then
        isTrue (fun _ hm => Option.some.inj hm ▸ hv)
      else
        isFalse (fun hf => hv (hf v rfl))

/-- The amended C7 side condition is decidable on any concrete trace. -/
instance decDeletesOnlyEarlier (campaign_id : String) :
    (ops : List SessionOp) → (d : SessionsDir) →
    Decidable (deletesOnlyEarlier campaign_id ops d)
  | [], _ => isTrue trivial
  | .create now nid sb nm nt :: ops, d =>
      decDeletesOnlyEarlier campaign_id ops
        (createSession now nid campaign_id sb nm nt d).2
  | .endOp now sid :: ops, d =>
      decDeletesOnlyEarlier campaign_id ops (endSession now d sid).2
  | .delOp sid :: ops, d =>
      @instDecidableAnd _ _ inferInstance
        (decDeletesOnlyEarlier campaign_id ops (deleteSession d sid).2)

/-! Concrete fixtures used by witnesses and counterexamples. -/

/-- A UTC instant. -/
def dt0 : PyDatetime := ⟨2024, 1, 1, 12, 0, 0, 0, some 0⟩

/-- A later UTC instant. -/
def dt1 : PyDatetime := ⟨2024, 1, 2, 9, 30, 0, 0, some 0⟩

/-- Metadata fixture. -/
def meta0 (i : String) : ArtifactMetadata := ⟨i, dt0, dt0, 1, "1.0"⟩

/-- An ended session stored on disk. -/
def sampleEnded : Session :=
  { metadata := meta0 "sid-1"
    campaign_id := "c1"
    session_number := 1
    name := none
    status := .ended
    started_at := dt0
    ended_at := some dt0
    started_by := "p1"
    notes := none
    participants := [] }

/-- The same session with its status flipped back to `active` by a caller
(mirrors `tests/unit/test_session_service.py::test_session_immutability`,
where the caller's stale object still carries a non-ended status). -/
def sampleRevived : Session := { sampleEnded with status := .active }

/-- What `update_session` persists for that call. -/
def sampleRevivedSaved : Session :=
  { sampleRevived with
      metadata := { sampleRevived.metadata with updated_at := dt1 } }

/-- An active session with one still-joined participant and one who left. -/
def sampleActive : Session :=
  { metadata := meta0 "sid-2"
    campaign_id := "c1"
    session_number := 2
    name := some "night two"
    status := .active
    started_at := dt0
    ended_at := none
    started_by := "p1"
    notes := none
    participants :=
      [⟨"p1", some "ch1", dt0, none, false⟩,
       ⟨"p2", some "ch2", dt0, some dt0, false⟩] }

/-- The campaign directory used by the C1 witness: an ended session 1 and
an active session 2. -/
def fixtureDir : SessionsDir :=
  [("session_001.yaml", sampleEnded), ("session_002.yaml", sampleActive)]

/-- The campaign directory the C7 witness starts from: a single ended
session numbered 1, so creations succeed. -/
def demoDir : SessionsDir := [("session_001.yaml", sampleEnded)]

/-- Trace for the C7 witness: create (assigned number 2), end it, delete
the earlier session 1 (strictly below the current maximum 2), create
again (assigned number 3). -/
def demoOps : List SessionOp :=
  [.create dt0 "s1" "p1" none none, .endOp dt1 "s1",
   .delOp "sid-1", .create dt1 "s2" "p1" none none]

/-- An active session in a second campaign, used as the join target. -/
def sampleTarget : Session :=
  { metadata := meta0 "sid-3"
    campaign_id := "c2"
    session_number := 1
    name := none
    status := .active
    started_at := dt0
    ended_at := none
    started_by := "p9"
    notes := none
    participants := [] }

/-- Two campaigns: `p1` is an active participant of campaign `c1`'s
session, and campaign `c2` has a separate active session. -/
def sysFixture : SystemState :=
  [("c1", ⟨[("session_002.yaml", sampleActive)], []⟩),
   ("c2", ⟨[("session_001.yaml", sampleTarget)], []⟩)]

/-- A session in which `p1` participates as GM (no character id). -/
def gmSession : Session :=
  { metadata := meta0 "sid-4"
    campaign_id := "c1"
    session_number := 3
    name := none
    status := .active
    started_at := dt0
    ended_at := none
    started_by := "p1"
    notes := none
    participants := [⟨"p1", none, dt0, none, true⟩] }

/-- A membership with no default character. -/
def membershipNoChar : CampaignMembership :=
  ⟨meta0 "m1", "p1", "c1", .player, none, dt0⟩

/-- One campaign whose active session already contains `p1` (as GM) and
whose membership for `p1` has no default character. -/
def sysC10 : SystemState :=
  [("c1", ⟨[("session_003.yaml", gmSession)], [("p1", membershipNoChar)]⟩)]

/-- All in-memory game states hold no characters.  This is an invariant of
the service: `GameState.characters` starts empty and
`apply_state_change` never inserts a key, so no reachable manager state
ever has one. -/
def statesCharsEmpty (sts : ManagerStates) : Prop :=
  ∀ e ∈ sts, e.2.characters = []

/-- A game action fixture. -/
def act1 : GameAction :=
  { action_id := "a1"
    timestamp := dt0
    actor_id := "p1"
    actor_type := .player
    action_type := "attack"
    target_ids := ["ch2"]
    parameters := []
    dice_results := []
    outcome :=
      { success := true
        description := "hit"
        state_changes :=
          [⟨"ch2", "combat.hit_points.current", .vint 10, .vint 7⟩]
        narrative := "" } }

/-- A second game action fixture. -/
def act2 : GameAction :=
  { act1 with
      action_id := "a2"
      outcome :=
        { success := true
          description := "heal"
          state_changes :=
            [⟨"ch2", "combat.hit_points.current", .vint 7, .vint 10⟩]
          narrative := "" } }

/-- A game-state service with a two-action history for campaign `c1`. -/
def svcFixture : GSService := ⟨[], [("c1", [act1, act2])]⟩

/-- A predicate on the content of an optional value. -/
def optionAll {α : Type} (P : α → Prop) : Option α → Prop
  | none => True
  | some x => P x

instance {α : Type} (P : α → Prop) [DecidablePred P] (o : Option α) :
    Decidable (optionAll P o) := by
  cases o <;> simp [optionAll] <;> infer_instance

/-- A string the loader's datetime sniffing leaves alone. -/
def safeStr (s : String) : Prop := parseDatetimeString s = none

/-- A datetime Python's `datetime` could hold and the system stores:
in-range fields, naive or UTC (the only offsets `utcnow`, `utc_now` and
`_ensure_utc_validator` ever produce). -/
def storableDt (d : PyDatetime) : Prop :=
  dtRanges d ∧ (d.utcOffset = none ∨ d.utcOffset = some 0)

/-- A `UTC_DATETIME` field value: in range and UTC-aware (what
`_ensure_utc_validator` guarantees at construction). -/
def utcDtOk (d : PyDatetime) : Prop :=
  dtRanges d ∧ d.utcOffset = some 0

/-- Valid participant whose strings are not datetime-like. -/
def wfParticipant (p : SessionParticipant) : Prop :=
  p.player_id ≠ "" ∧ safeStr p.player_id ∧
  optionAll safeStr p.character_id ∧
  utcDtOk p.joined_at ∧ optionAll utcDtOk p.left_at

/-- Valid metadata whose strings are not datetime-like. -/
def wfMetadata (m : ArtifactMetadata) : Prop :=
  safeStr m.id ∧ storableDt m.created_at ∧ storableDt m.updated_at ∧
  1 ≤ m.version ∧ safeStr m.schema_version

/-- Valid session whose string fields are not datetime-like (the amended
C3 side condition). -/
def wfSession (s : Session) : Prop :=
  wfMetadata s.metadata ∧
  s.campaign_id ≠ "" ∧ safeStr s.campaign_id ∧
  1 ≤ s.session_number ∧
  optionAll safeStr s.name ∧
  utcDtOk s.started_at ∧ optionAll utcDtOk s.ended_at ∧
  s.started_by ≠ "" ∧ safeStr s.started_by ∧
  optionAll safeStr s.notes ∧
  ∀ p ∈ s.participants, wfParticipant p

instance (s : String) : Decidable (safeStr s) := by
  unfold safeStr
  infer_instance

instance (d : PyDatetime) : Decidable (storableDt d) := by
  unfold storableDt
  infer_instance

instance (d : PyDatetime) : Decidable (utcDtOk d) := by
  unfold utcDtOk
  infer_instance

instance (p : SessionParticipant) : Decidable (wfParticipant p) := by
  unfold wfParticipant
  infer_instance

instance (m : ArtifactMetadata) : Decidable (wfMetadata m) := by
  unfold wfMetadata
  infer_instance

instance (s : Session) : Decidable (wfSession s) := by
  unfold wfSession
  infer_instance

/-- A perfectly ordinary session whose free-text notes happen to look like
an ISO datetime. -/
def sessionC3 : Session :=
  { metadata := meta0 "sid-9"
    campaign_id := "c1"
    session_number := 4
    name := none
    status := .active
    started_at := dt0
    ended_at := none
    started_by := "p1"
    notes := some "2024-01-01T12:00:00"
    participants := [] }

/-! Helper lemmas about the keyed-collection primitives. -/

theorem alGet_alSet_self {α β : Type} [DecidableEq α] (l : List (α × β))
    (k : α) (v : β) : alGet (alSet l k v) k = some v := by
  induction l with
  | nil => simp [alSet, alGet]
  | cons e l ih =>
      by_cases h : e.1 = k
      · simp [alSet, h, alGet]
      · simp [alSet, h, alGet, ih]

theorem alGet_alSet_ne {α β : Type} [DecidableEq α] (l : List (α × β))
    {k k' : α} (v : β) (h : k' ≠ k) :
    alGet (alSet l k v) k' = alGet l k' := by
  have hk : ¬ (k = k') := Ne.symm h
  induction l with
  | nil => simp [alSet, alGet, hk]
  | cons e l ih =>
      by_cases he : e.1 = k
      · have he' : ¬ (e.1 = k') := by rw [he]; exact hk
        simp [alSet, he, alGet, hk, he']
      · by_cases he' : e.1 = k'
        · simp [alSet, he, alGet, he', h]
        · simp [alSet, he, alGet, he', ih]

theorem alGet_eq_none_of_not_mem {α β : Type} [DecidableEq α]
    {l : List (α × β)} {k : α} (h : k ∉ l.map Prod.fst) :
    alGet l k = none := by
  induction l with
  | nil => simp [alGet]
  | cons e l ih =>
      simp only [List.map_cons, List.mem_cons] at h
      push_neg at h
      have he : ¬ (e.1 = k) := fun hh => h.1 hh.symm
      simp [alGet, he, ih h.2]

theorem alGet_alErase_self {α β : Type} [DecidableEq α]
    {l : List (α × β)} (h : (l.map Prod.fst).Nodup) (k : α) :
    alGet (alErase l k) k = none := by
  induction l with
  | nil => simp [alErase, alGet]
  | cons e l ih =>
      simp only [List.map_cons, List.nodup_cons] at h
      by_cases he : e.1 = k
      · rw [alErase]
        simp only [he, if_true]
        exact alGet_eq_none_of_not_mem (he ▸ h.1)
      · rw [alErase]
        simp only [he, if_false]
        rw [alGet]
        simp [he, ih h.2]

theorem alGet_alErase_ne {α β : Type} [DecidableEq α]
    (l : List (α × β)) {k k' : α} (h : k' ≠ k) :
    alGet (alErase l k) k' = alGet l k' := by
  have hk : ¬ (k = k') := Ne.symm h
  induction l with
  | nil => simp [alErase]
  | cons e l ih =>
      by_cases he : e.1 = k
      · have he' : ¬ (e.1 = k') := by rw [he]; exact hk
        simp [alErase, he, alGet, he', hk]
      · by_cases he' : e.1 = k'
        · simp [alErase, he, alGet, he', h]
        · simp [alErase, he, alGet, he', ih]

theorem alSet_map_fst {α β : Type} [DecidableEq α] (l : List (α × β))
    (k : α) (v : β) :
    (alSet l k v).map Prod.fst = l.map Prod.fst ∨
    (alSet l k v).map Prod.fst = l.map Prod.fst ++ [k] := by
  induction l with
  | nil => right; simp [alSet]
  | cons e l ih =>
      by_cases he : e.1 = k
      · left; simp [alSet, he]
      · rcases ih with ih | ih
        · left; simp [alSet, he, ih]
        · right; simp [alSet, he, ih]

theorem alSet_nodup {α β : Type} [DecidableEq α] {l : List (α × β)}
    (h : (l.map Prod.fst).Nodup) (k : α) (v : β) :
    ((alSet l k v).map Prod.fst).Nodup := by
  induction l with
  | nil => simp [alSet]
  | cons e l ih =>
      simp only [List.map_cons, List.nodup_cons] at h
      by_cases he : e.1 = k
      · rw [alSet]
        simp only [he, if_true, List.map_cons, List.nodup_cons]
        exact ⟨he ▸ h.1, h.2⟩
      · rw [alSet]
        simp only [he, if_false, List.map_cons, List.nodup_cons]
        refine ⟨?_, ih h.2⟩
        rcases alSet_map_fst l k v with hm | hm
        · rw [hm]; exact h.1
        · rw [hm]
          intro hmem
          rcases List.mem_append.mp hmem with hh | hh
          · exact h.1 hh
          · exact he (by simpa using hh)

theorem alGet_eq_some_of_mem {α β : Type} [DecidableEq α]
    {l : List (α × β)} (hN : (l.map Prod.fst).Nodup) {k : α} {v : β}
    (hmem : (k, v) ∈ l) : alGet l k = some v := by
  induction l with
  | nil => cases hmem
  | cons e l ih =>
      simp only [List.map_cons, List.nodup_cons] at hN
      rcases List.mem_cons.mp hmem with h | h
      · rw [← h]
        simp [alGet]
      · have hk : k ∈ l.map Prod.fst := List.mem_map.mpr ⟨(k, v), h, rfl⟩
        have he : ¬ (e.1 = k) := fun hh => hN.1 (hh ▸ hk)
        simp [alGet, he, ih hN.2 h]

theorem mem_alSet_iff {α β : Type} [DecidableEq α]
    {l : List (α × β)} (hN : (l.map Prod.fst).Nodup) {k : α} {w : β}
    (hget : alGet l k = some w) (v : β) (x : α × β) :
    x ∈ alSet l k v ↔ x = (k, v) ∨ (x ∈ l ∧ x.1 ≠ k) := by
  induction l with
  | nil => simp [alGet] at hget
  | cons e l ih =>
      simp only [List.map_cons, List.nodup_cons] at hN
      by_cases he : e.1 = k
      · rw [alSet]
        simp only [he, if_true]
        constructor
        · intro hx
          rcases List.mem_cons.mp hx with h | h
          · exact Or.inl h
          · refine Or.inr ⟨List.mem_cons_of_mem e h, ?_⟩
            intro hk
            exact hN.1 (he ▸ hk ▸ List.mem_map.mpr ⟨x, h, rfl⟩)
        · intro hx
          rcases hx with h | ⟨hmem, hne⟩
          · exact h ▸ List.mem_cons_self _ _
          · rcases List.mem_cons.mp hmem with h | h
            · exact absurd (h ▸ he) hne
            · exact List.mem_cons_of_mem _ h
      · rw [alSet]
        simp only [he, if_false]
        have hget' : alGet l k = some w := by
          rw [alGet] at hget
          simpa [he] using hget
        constructor
        · intro hx
          rcases List.mem_cons.mp hx with h | h
          · exact Or.inr ⟨h ▸ List.mem_cons_self _ _, h ▸ he⟩
          · rcases (ih hN.2 hget').mp h with h2 | ⟨h2, h3⟩
            · exact Or.inl h2
            · exact Or.inr ⟨List.mem_cons_of_mem _ h2, h3⟩
        · intro hx
          rcases hx with h | ⟨hmem, hne⟩
          · exact List.mem_cons_of_mem _ ((ih hN.2 hget').mpr (Or.inl h))
          · rcases List.mem_cons.mp hmem with h | h
            · exact h ▸ List.mem_cons_self _ _
            · exact List.mem_cons_of_mem _
                ((ih hN.2 hget').mpr (Or.inr ⟨h, hne⟩))

theorem mem_alErase_iff {α β : Type} [DecidableEq α]
    {l : List (α × β)} (hN : (l.map Prod.fst).Nodup) (k : α) (x : α × β) :
    x ∈ alErase l k ↔ x ∈ l ∧ x.1 ≠ k := by
  induction l with
  | nil => simp [alErase]
  | cons e l ih =>
      simp only [List.map_cons, List.nodup_cons] at hN
      by_cases he : e.1 = k
      · rw [alErase]
        simp only [he, if_true]
        constructor
        · intro hx
          refine ⟨List.mem_cons_of_mem e hx, ?_⟩
          intro hk
          exact hN.1 (he ▸ hk ▸ List.mem_map.mpr ⟨x, hx, rfl⟩)
        · intro ⟨hmem, hne⟩
          rcases List.mem_cons.mp hmem with h | h
          · exact absurd (h ▸ he) hne
          · exact h
      · rw [alErase]
        simp only [he, if_false]
        constructor
        · intro hx
          rcases List.mem_cons.mp hx with h | h
          · exact ⟨h ▸ List.mem_cons_self _ _, h ▸ he⟩
          · obtain ⟨h1, h2⟩ := (ih hN.2).mp h
            exact ⟨List.mem_cons_of_mem _ h1, h2⟩
        · intro ⟨hmem, hne⟩
          rcases List.mem_cons.mp hmem with h | h
          · exact h ▸ List.mem_cons_self _ _
          · exact List.mem_cons_of_mem _ ((ih hN.2).mpr ⟨h, hne⟩)

theorem alErase_sublist {α β : Type} [DecidableEq α]
    (l : List (α × β)) (k : α) : (alErase l k).Sublist l := by
  induction l with
  | nil => simp [alErase]
  | cons e l ih =>
      by_cases he : e.1 = k
      · rw [alErase]
        simp only [he, if_true]
        exact List.sublist_cons_self e l
      · rw [alErase]
        simp only [he, if_false]
        exact List.Sublist.cons₂ e ih

theorem alErase_nodup {α β : Type} [DecidableEq α]
    {l : List (α × β)} (hN : (l.map Prod.fst).Nodup) (k : α) :
    ((alErase l k).map Prod.fst).Nodup :=
  ((alErase_sublist l k).map Prod.fst).nodup hN

/-! Facts about Python `max` and the session-number bookkeeping. -/

theorem foldl_max_bounds (l : List Int) (a : Int) :
    a ≤ l.foldl max a ∧ ∀ x ∈ l, x ≤ l.foldl max a := by
  induction l generalizing a with
  | nil => simp
  | cons y l ih =>
      obtain ⟨h1, h2⟩ := ih (max a y)
      rw [List.foldl_cons]
      refine ⟨le_trans (le_max_left a y) h1, ?_⟩
      intro x hx
      rcases List.mem_cons.mp hx with h | h
      · subst h
        exact le_trans (le_max_right a x) h1
      · exact h2 x h

theorem foldl_max_mem (l : List Int) (a : Int) :
    l.foldl max a = a ∨ l.foldl max a ∈ l := by
  induction l generalizing a with
  | nil => left; rfl
  | cons y l ih =>
      rcases ih (max a y) with h | h
      · rcases max_choice a y with hc | hc
        · left
          simpa [hc] using h
        · right
          rw [List.foldl_cons, h, hc]
          exact List.mem_cons_self y l
      · right
        exact List.mem_cons_of_mem y h

theorem pyMax_eq_some_iff {l : List Int} {m : Int} :
    pyMax l = some m ↔ (m ∈ l ∧ ∀ x ∈ l, x ≤ m) := by
  constructor
  · intro h
    cases l with
    | nil => simp [pyMax] at h
    | cons y l =>
        rw [pyMax, Option.some_inj] at h
        obtain ⟨h1, h2⟩ := foldl_max_bounds l y
        subst h
        constructor
        · rcases foldl_max_mem l y with hm | hm
          · rw [hm]
            exact List.mem_cons_self y l
          · exact List.mem_cons_of_mem y hm
        · intro x hx
          rcases List.mem_cons.mp hx with hh | hh
          · subst hh
            exact h1
          · exact h2 x hh
  · intro ⟨hmem, hub⟩
    cases l with
    | nil => cases hmem
    | cons y l =>
        rw [pyMax, Option.some_inj]
        obtain ⟨h1, h2⟩ := foldl_max_bounds l y
        have hle : l.foldl max y ≤ m := by
          rcases foldl_max_mem l y with hm | hm
          · rw [hm]
            exact hub y (List.mem_cons_self y l)
          · exact hub _ (List.mem_cons_of_mem y hm)
        have hge : m ≤ l.foldl max y := by
          rcases List.mem_cons.mp hmem with hh | hh
          · subst hh
            exact h1
          · exact h2 m hh
        exact le_antisymm hle hge

theorem mem_listSessions {d : SessionsDir} {s : Session} :
    s ∈ listSessions d ↔ ∃ fn, (fn, s) ∈ d := by
  rw [listSessions]
  rw [(List.perm_insertionSort bySessionNumber (d.map (fun e => e.2))).mem_iff]
  constructor
  · intro h
    obtain ⟨e, he, rfl⟩ := List.mem_map.mp h
    exact ⟨e.1, he⟩
  · intro ⟨fn, h⟩
    exact List.mem_map.mpr ⟨(fn, s), h, rfl⟩

theorem sessionsMax_eq_some_iff {d : SessionsDir} {m : Int} :
    sessionsMax d = some m ↔
      ((∃ e ∈ d, e.2.session_number = m) ∧
        ∀ e ∈ d, e.2.session_number ≤ m) := by
  rw [sessionsMax, pyMax_eq_some_iff]
  constructor
  · intro ⟨h1, h2⟩
    obtain ⟨s, hs, hn⟩ := List.mem_map.mp h1
    obtain ⟨fn, hfn⟩ := mem_listSessions.mp hs
    refine ⟨⟨(fn, s), hfn, hn⟩, ?_⟩
    intro e he
    exact h2 _ (List.mem_map.mpr ⟨e.2, mem_listSessions.mpr ⟨e.1, he⟩, rfl⟩)
  · intro ⟨⟨e, he, hn⟩, h2⟩
    refine ⟨List.mem_map.mpr ⟨e.2, mem_listSessions.mpr ⟨e.1, he⟩, hn⟩, ?_⟩
    intro x hx
    obtain ⟨s, hs, rfl⟩ := List.mem_map.mp hx
    obtain ⟨fn, hfn⟩ := mem_listSessions.mp hs
    exact h2 (fn, s) hfn

theorem getActiveSession_eq_none_iff {d : SessionsDir} :
    getActiveSession d = none ↔ ∀ e ∈ d, ¬ isOpenStatus e.2 := by
  rw [getActiveSession, List.find?_eq_none]
  constructor
  · intro h e he
    exact by simpa using h e.2 (mem_listSessions.mpr ⟨e.1, he⟩)
  · intro h s hs
    obtain ⟨fn, hfn⟩ := mem_listSessions.mp hs
    simpa using h (fn, s) hfn

theorem getActiveSession_isOpen {d : SessionsDir} {s : Session}
    (h : getActiveSession d = some s) : isOpenStatus s := by
  exact List.find?_some h

/-- C5: the claim ("for every session stored with status ended, any
update_session attempt against it fails") is broken by the code: the guard
inspects only the *argument's* status, so passing the stored-ended
session with its status reset to `active` succeeds and overwrites the
ended session on disk — the repository's own test
`test_session_immutability` expects `ValueError("Cannot modify an ended
session")` on exactly this shape of call.  Evaluating the model at the
failing input shows the call succeeding. -/
theorem updateSession_overwrites_ended_session :
    sampleEnded.status = SessionStatus.ended ∧
    updateSession dt1 [("session_001.yaml", sampleEnded)] sampleRevived
      = (.ok sampleRevivedSaved, [("session_001.yaml", sampleRevivedSaved)]) ∧
    sampleRevivedSaved.status = SessionStatus.active := by
  refine ⟨rfl, ?_, rfl⟩
  rfl

/-- C9: `end_session` on a session whose stored status is already `ended`
returns the stored session unchanged, raises nothing, and leaves the
directory untouched. -/
theorem endSession_already_ended_noop (now : PyDatetime) (d : SessionsDir)
    (session_id fn : String) (s : Session)
    (hfind : findSessionEntry d session_id = some (fn, s))
    (hended : s.status = SessionStatus.ended) :
    endSession now d session_id = (.ok s, d) := by
  unfold endSession
  rw [hfind]
  simp [hended]

/-- C9 witness. -/
theorem endSession_already_ended_noop_witness :
    endSession dt1 [("session_001.yaml", sampleEnded)] "sid-1"
      = (.ok sampleEnded, [("session_001.yaml", sampleEnded)]) :=
  endSession_already_ended_noop dt1 _ "sid-1" "session_001.yaml" sampleEnded
    rfl rfl

/-- Closing a participant list leaves no `left_at = None` entry. -/
theorem closeParticipants_all_closed (now : PyDatetime)
    (ps : List SessionParticipant) :
    ∀ p ∈ closeParticipants now ps, p.left_at ≠ none := by
  intro p hp
  simp only [closeParticipants, List.mem_map] at hp
  obtain ⟨q, _, rfl⟩ := hp
  by_cases h : q.left_at = none <;> simp [h]

/-- C8: `end_session` on a stored active-or-paused session stamps
`left_at` on every still-joined participant, sets status `ended` and a
non-null `ended_at`, and persists the result, leaving no participant with
`left_at = None`. -/
theorem endSession_closes_everything (now : PyDatetime) (d : SessionsDir)
    (session_id fn : String) (s : Session)
    (hfind : findSessionEntry d session_id = some (fn, s))
    (hopen : s.status ≠ SessionStatus.ended) :
    ∃ s' : Session,
      endSession now d session_id = (.ok s', dirSet d fn s') ∧
      s'.status = SessionStatus.ended ∧
      s'.ended_at = some now ∧
      s'.participants = closeParticipants now s.participants ∧
      (∀ p ∈ s'.participants, p.left_at ≠ none) ∧
      alGet (dirSet d fn s') fn = some s' := by
  refine ⟨endedCopy now s, ?_, rfl, rfl, rfl, ?_, ?_⟩
  · unfold endSession
    rw [hfind]
    simp [hopen]
  · rw [endedCopy]
    exact closeParticipants_all_closed now s.participants
  · exact alGet_alSet_self d fn _

/-- C8 witness. -/
theorem endSession_closes_everything_witness :
    ∃ s' : Session,
      endSession dt1 [("session_002.yaml", sampleActive)] "sid-2"
        = (.ok s', dirSet [("session_002.yaml", sampleActive)] "session_002.yaml" s') ∧
      s'.status = SessionStatus.ended ∧
      s'.ended_at = some dt1 ∧
      s'.participants = closeParticipants dt1 sampleActive.participants ∧
      (∀ p ∈ s'.participants, p.left_at ≠ none) ∧
      alGet (dirSet [("session_002.yaml", sampleActive)] "session_002.yaml" s')
          "session_002.yaml" = some s' :=
  endSession_closes_everything dt1 _ "sid-2" "session_002.yaml" sampleActive
    rfl (by decide)

/-- C2: whichever step of `save_artifact` fails after the temporary file
has been created — locking, serialization, the write itself (leaving any
partial content), flushing, unlocking, or the final rename — the handler
removes the temporary file, the destination file's prior content is
untouched, and the original exception propagates. -/
theorem saveArtifact_failure_leaves_destination (content partialContent : String)
    (file_path : FPath) (fs : FileSys) (step : SaveStep)
    (hNodup : (fs.map Prod.fst).Nodup)
    (hdest : file_path.suffix ≠ ".tmp") :
    (saveArtifact content file_path (some step) partialContent fs).2 = some step ∧
    fsGet (saveArtifact content file_path (some step) partialContent fs).1
        (file_path.withSuffix ".tmp") = none ∧
    fsGet (saveArtifact content file_path (some step) partialContent fs).1 file_path
      = fsGet fs file_path := by
  have hne : file_path ≠ file_path.withSuffix ".tmp" := by
    intro h
    exact hdest (congrArg FPath.suffix h)
  have hNodup1 : ∀ c : String,
      ((alSet fs (file_path.withSuffix ".tmp") c).map Prod.fst).Nodup :=
    fun c => alSet_nodup hNodup _ c
  have hclean : ∀ c c' : String,
      saveCleanup (fsSet (fsSet fs (file_path.withSuffix ".tmp") c)
        (file_path.withSuffix ".tmp") c') (file_path.withSuffix ".tmp")
      = fsErase (fsSet (fsSet fs (file_path.withSuffix ".tmp") c)
        (file_path.withSuffix ".tmp") c') (file_path.withSuffix ".tmp") := by
    intro c c'
    unfold saveCleanup
    rw [fsGet, fsSet, alGet_alSet_self]
    simp
  have hget : ∀ c c' : String,
      fsGet (fsErase (fsSet (fsSet fs (file_path.withSuffix ".tmp") c)
          (file_path.withSuffix ".tmp") c') (file_path.withSuffix ".tmp"))
        (file_path.withSuffix ".tmp") = none := by
    intro c c'
    unfold fsGet fsErase fsSet
    exact alGet_alErase_self (alSet_nodup (hNodup1 c) _ c') _
  have hdget : ∀ c c' : String,
      fsGet (fsErase (fsSet (fsSet fs (file_path.withSuffix ".tmp") c)
          (file_path.withSuffix ".tmp") c') (file_path.withSuffix ".tmp"))
        file_path = fsGet fs file_path := by
    intro c c'
    unfold fsGet fsErase fsSet
    rw [alGet_alErase_ne _ hne, alGet_alSet_ne _ _ hne, alGet_alSet_ne _ _ hne]
  have hsingle : ∀ c : String,
      saveCleanup (fsSet fs (file_path.withSuffix ".tmp") c)
        (file_path.withSuffix ".tmp")
      = fsErase (fsSet fs (file_path.withSuffix ".tmp") c)
        (file_path.withSuffix ".tmp") := by
    intro c
    unfold saveCleanup
    rw [fsGet, fsSet, alGet_alSet_self]
    simp
  have hget1 : ∀ c : String,
      fsGet (fsErase (fsSet fs (file_path.withSuffix ".tmp") c)
        (file_path.withSuffix ".tmp")) (file_path.withSuffix ".tmp") = none := by
    intro c
    unfold fsGet fsErase fsSet
    exact alGet_alErase_self (hNodup1 c) _
  have hdget1 : ∀ c : String,
      fsGet (fsErase (fsSet fs (file_path.withSuffix ".tmp") c)
        (file_path.withSuffix ".tmp")) file_path = fsGet fs file_path := by
    intro c
    unfold fsGet fsErase fsSet
    rw [alGet_alErase_ne _ hne, alGet_alSet_ne _ _ hne]
  cases step with
  | lockEx =>
      refine ⟨rfl, ?_, ?_⟩
      · simpa [saveArtifact, hsingle] using hget1 ""
      · simpa [saveArtifact, hsingle] using hdget1 ""
  | serialize =>
      refine ⟨rfl, ?_, ?_⟩
      · simpa [saveArtifact, hsingle] using hget1 ""
      · simpa [saveArtifact, hsingle] using hdget1 ""
  | writeBytes =>
      refine ⟨rfl, ?_, ?_⟩
      · simpa [saveArtifact, hclean] using hget "" partialContent
      · simpa [saveArtifact, hclean] using hdget "" partialContent
  | flushFile =>
      refine ⟨rfl, ?_, ?_⟩
      · simpa [saveArtifact, hclean] using hget "" content
      · simpa [saveArtifact, hclean] using hdget "" content
  | unlock =>
      refine ⟨rfl, ?_, ?_⟩
      · simpa [saveArtifact, hclean] using hget "" content
      · simpa [saveArtifact, hclean] using hdget "" content
  | rename =>
      refine ⟨rfl, ?_, ?_⟩
      · simpa [saveArtifact, hclean] using hget "" content
      · simpa [saveArtifact, hclean] using hdget "" content

/-- C1: while a campaign has a stored active-or-paused session,
`create_session` raises the conflict `ValueError` and writes nothing;
after that session is ended, `create_session` succeeds and assigns the
previous maximum `session_number` plus one.  Hypotheses: filenames are
unique (a filesystem directory), the open session is the one its id
locates, it is the only open session (the invariant state the claim
presupposes), and `m` is the campaign's current maximum session number. -/
theorem createSession_conflict_then_success
    (d : SessionsDir) (s : Session) (fn : String) (m : Int)
    (hNodup : (d.map Prod.fst).Nodup)
    (hactive : getActiveSession d = some s)
    (hfind : findSessionEntry d s.metadata.id = some (fn, s))
    (huniq : ∀ e ∈ d, isOpenStatus e.2 → e = (fn, s))
    (hmax : sessionsMax d = some m) :
    (∀ now nid cid sb nm nt,
      createSession now nid cid sb nm nt d
        = (.error (.valueError "Campaign already has an active/paused session"),
            d)) ∧
    (∀ nowEnd now2 nid cid sb nm nt,
      ∃ sNew d2,
        createSession now2 nid cid sb nm nt
            (endSession nowEnd d s.metadata.id).2
          = (.ok sNew, d2) ∧
        sNew.session_number = m + 1) := by
  have hopen : isOpenStatus s := getActiveSession_isOpen hactive
  have hsne : ¬ (s.status = SessionStatus.ended) := by
    have : s.status = SessionStatus.active ∨ s.status = SessionStatus.paused := by
      simpa [isOpenStatus] using hopen
    rcases this with h | h <;> simp [h]
  constructor
  · intro now nid cid sb nm nt
    unfold createSession
    rw [hactive]
  · intro nowEnd now2 nid cid sb nm nt
    have hmem : (fn, s) ∈ d := List.mem_of_find?_eq_some hfind
    have halGet : alGet d fn = some s := alGet_eq_some_of_mem hNodup hmem
    have hd1 : (endSession nowEnd d s.metadata.id).2
        = dirSet d fn (endedCopy nowEnd s) := by
      unfold endSession
      rw [hfind]
      simp [hsne]
    have hmemIff := mem_alSet_iff hNodup halGet (endedCopy nowEnd s)
    have hnone : getActiveSession (dirSet d fn (endedCopy nowEnd s)) = none := by
      rw [getActiveSession_eq_none_iff]
      intro e he
      rcases (hmemIff e).mp he with h | ⟨h1, h2⟩
      · subst h
        simp [isOpenStatus, endedCopy]
      · intro hopen'
        exact h2 (congrArg Prod.fst (huniq e h1 hopen'))
    have hmax1 : sessionsMax (dirSet d fn (endedCopy nowEnd s)) = some m := by
      obtain ⟨⟨e0, he0, hn0⟩, hub⟩ := sessionsMax_eq_some_iff.mp hmax
      rw [sessionsMax_eq_some_iff]
      constructor
      · by_cases hk : e0.1 = fn
        · have he0s : e0.2 = s := by
            have hpair : (e0.1, e0.2) ∈ d := by simpa using he0
            have := alGet_eq_some_of_mem hNodup hpair
            rw [hk, halGet] at this
            exact Option.some_inj.mp this.symm
          refine ⟨(fn, endedCopy nowEnd s), (hmemIff _).mpr (Or.inl rfl), ?_⟩
          rw [← hn0, he0s]
          rfl
        · exact ⟨e0, (hmemIff e0).mpr (Or.inr ⟨he0, hk⟩), hn0⟩
      · intro e he
        rcases (hmemIff e).mp he with h | ⟨h1, _⟩
        · subst h
          exact hub (fn, s) hmem
        · exact hub e h1
    rw [hd1]
    unfold createSession
    rw [hnone, hmax1]
    exact ⟨_, _, rfl, rfl⟩

theorem mem_alSet_sub {α β : Type} [DecidableEq α]
    {l : List (α × β)} {k : α} {v : β} {x : α × β}
    (h : x ∈ alSet l k v) : x = (k, v) ∨ x ∈ l := by
  induction l with
  | nil => simpa [alSet] using h
  | cons e l ih =>
      by_cases he : e.1 = k
      · rw [alSet] at h
        simp only [he, if_true] at h
        rcases List.mem_cons.mp h with h | h
        · exact Or.inl h
        · exact Or.inr (List.mem_cons_of_mem _ h)
      · rw [alSet] at h
        simp only [he, if_false] at h
        rcases List.mem_cons.mp h with h | h
        · exact Or.inr (h ▸ List.mem_cons_self _ _)
        · rcases ih h with h | h
          · exact Or.inl h
          · exact Or.inr (List.mem_cons_of_mem _ h)

theorem self_mem_alSet {α β : Type} [DecidableEq α]
    (l : List (α × β)) (k : α) (v : β) : (k, v) ∈ alSet l k v := by
  induction l with
  | nil => simp [alSet]
  | cons e l ih =>
      by_cases he : e.1 = k
      · rw [alSet]
        simp [he]
      · rw [alSet]
        simp only [he, if_false]
        exact List.mem_cons_of_mem _ ih

theorem alSet_map_snd_eq {α β γ : Type} [DecidableEq α]
    {l : List (α × β)} {k : α} {v w : β} (f : β → γ)
    (hget : alGet l k = some w) (hf : f v = f w) :
    (alSet l k v).map (fun e => f e.2) = l.map (fun e => f e.2) := by
  induction l with
  | nil => simp [alGet] at hget
  | cons e l ih =>
      by_cases he : e.1 = k
      · rw [alGet] at hget
        simp only [he, if_true, Option.some_inj] at hget
        rw [alSet]
        simp [he, hf, hget]
      · rw [alGet] at hget
        simp only [he, if_false] at hget
        rw [alSet]
        simp only [he, if_false, List.map_cons]
        rw [ih hget]

theorem pyMax_eq_none_iff {l : List Int} : pyMax l = none ↔ l = [] := by
  cases l <;> simp [pyMax]

theorem pyMax_mem_congr {l1 l2 : List Int}
    (h : ∀ x, x ∈ l1 ↔ x ∈ l2) : pyMax l1 = pyMax l2 := by
  cases h1 : pyMax l1 with
  | none =>
      rw [pyMax_eq_none_iff] at h1
      subst h1
      have : l2 = [] := by
        apply List.eq_nil_iff_forall_not_mem.mpr
        intro x hx
        exact absurd ((h x).mpr hx) (List.not_mem_nil x)
      rw [this]
      rfl
  | some m =>
      obtain ⟨hmem, hub⟩ := pyMax_eq_some_iff.mp h1
      symm
      rw [pyMax_eq_some_iff]
      exact ⟨(h m).mp hmem, fun x hx => hub x ((h x).mpr hx)⟩

theorem mem_sessionNumbers {d : SessionsDir} {x : Int} :
    x ∈ (listSessions d).map (fun s => s.session_number) ↔
      ∃ e ∈ d, e.2.session_number = x := by
  rw [List.mem_map]
  constructor
  · intro ⟨s, hs, hn⟩
    obtain ⟨fn, hfn⟩ := mem_listSessions.mp hs
    exact ⟨(fn, s), hfn, hn⟩
  · intro ⟨e, he, hn⟩
    exact ⟨e.2, mem_listSessions.mpr ⟨e.1, he⟩, hn⟩

theorem sessionsMax_congr {d1 d2 : SessionsDir}
    (h : d1.map (fun e => e.2.session_number)
        = d2.map (fun e => e.2.session_number)) :
    sessionsMax d1 = sessionsMax d2 := by
  rw [sessionsMax, sessionsMax]
  apply pyMax_mem_congr
  intro x
  rw [mem_sessionNumbers, mem_sessionNumbers]
  constructor
  · intro ⟨e, he, hn⟩
    have : e.2.session_number ∈ d2.map (fun e => e.2.session_number) := by
      rw [← h]
      exact List.mem_map.mpr ⟨e, he, rfl⟩
    obtain ⟨e2, he2, hn2⟩ := List.mem_map.mp this
    exact ⟨e2, he2, hn ▸ hn2⟩
  · intro ⟨e, he, hn⟩
    have : e.2.session_number ∈ d1.map (fun e => e.2.session_number) := by
      rw [h]
      exact List.mem_map.mpr ⟨e, he, rfl⟩
    obtain ⟨e2, he2, hn2⟩ := List.mem_map.mp this
    exact ⟨e2, he2, hn ▸ hn2⟩

theorem sessionsMax_eq_none_iff {d : SessionsDir} :
    sessionsMax d = none ↔ d = [] := by
  rw [sessionsMax, pyMax_eq_none_iff, List.map_eq_nil_iff]
  constructor
  · intro h
    have : d.map (fun e => e.2) = [] :=
      ((List.perm_insertionSort bySessionNumber (d.map (fun e => e.2))).symm.trans
        (h ▸ List.Perm.refl _)).eq_nil
    exact List.map_eq_nil_iff.mp this
  · intro h
    subst h
    rfl

/-- C1 witness. -/
theorem createSession_conflict_then_success_witness :
    (createSession dt1 "nid" "c1" "p1" none none fixtureDir
      = (.error (.valueError "Campaign already has an active/paused session"),
          fixtureDir)) ∧
    (∃ sNew d2,
      createSession dt1 "nid" "c1" "p1" none none
          (endSession dt1 fixtureDir sampleActive.metadata.id).2
        = (.ok sNew, d2) ∧
      sNew.session_number = 2 + 1) := by
  have h := createSession_conflict_then_success fixtureDir sampleActive
    "session_002.yaml" 2 (by decide) (by decide) (by decide)
    (by decide) (by decide)
  exact ⟨h.1 dt1 "nid" "c1" "p1" none none,
    h.2 dt1 dt1 "nid" "c1" "p1" none none⟩

theorem createSession_ok_spec
    (d : SessionsDir) (hN : (d.map Prod.fst).Nodup)
    (hnone : getActiveSession d = none)
    (now : PyDatetime) (nid cid sb : String) (nm nt : Option String) :
    ∃ s d2,
      createSession now nid cid sb nm nt d = (.ok s, d2) ∧
      s.session_number
        = (match sessionsMax d with | none => 1 | some m => m + 1) ∧
      sessionsMax d2 = some s.session_number ∧
      (d2.map Prod.fst).Nodup := by
  cases hsm : sessionsMax d with
  | none =>
      have hd : d = [] := sessionsMax_eq_none_iff.mp hsm
      subst hd
      unfold createSession
      rw [hnone, hsm]
      refine ⟨_, _, rfl, rfl, ?_, ?_⟩
      · rw [sessionsMax_eq_some_iff]
        constructor
        · exact ⟨_, self_mem_alSet [] _ _, rfl⟩
        · intro e he
          rcases mem_alSet_sub he with h | h
          · subst h
            exact le_refl _
          · cases h
      · exact alSet_nodup (by simp) _ _
  | some m =>
      obtain ⟨hatt, hub⟩ := sessionsMax_eq_some_iff.mp hsm
      unfold createSession
      rw [hnone, hsm]
      refine ⟨_, _, rfl, rfl, ?_, ?_⟩
      · rw [sessionsMax_eq_some_iff]
        constructor
        · exact ⟨_, self_mem_alSet d _ _, rfl⟩
        · intro e he
          rcases mem_alSet_sub he with h | h
          · subst h
            exact le_refl _
          · have h1 := hub e h
            show e.2.session_number ≤ m + 1
            omega
      · exact alSet_nodup hN _ _

theorem endSession_preserves_numbers (now : PyDatetime) (d : SessionsDir)
    (sid : String) (hN : (d.map Prod.fst).Nodup) :
    sessionsMax (endSession now d sid).2 = sessionsMax d ∧
    (((endSession now d sid).2).map Prod.fst).Nodup := by
  cases hfind : findSessionEntry d sid with
  | none =>
      unfold endSession
      rw [hfind]
      exact ⟨rfl, hN⟩
  | some e =>
      by_cases hend : e.2.status = SessionStatus.ended
      · have hstep : (endSession now d sid).2 = d := by
          unfold endSession
          rw [hfind]
          simp [hend]
        rw [hstep]
        exact ⟨rfl, hN⟩
      · have hstep : (endSession now d sid).2
            = dirSet d e.1 (endedCopy now e.2) := by
          unfold endSession
          rw [hfind]
          simp [hend]
        rw [hstep]
        have hmem : (e.1, e.2) ∈ d := by
          simpa using List.mem_of_find?_eq_some hfind
        have halGet : alGet d e.1 = some e.2 := alGet_eq_some_of_mem hN hmem
        exact ⟨sessionsMax_congr (alSet_map_snd_eq _ halGet rfl),
          alSet_nodup hN _ _⟩

theorem deleteSession_preserves_numbers (d : SessionsDir) (sid : String)
    (hN : (d.map Prod.fst).Nodup)
    (hcond : ∀ e ∈ d, e.2.metadata.id = sid →
      ∀ m, sessionsMax d = some m → e.2.session_number < m) :
    sessionsMax (deleteSession d sid).2 = sessionsMax d ∧
    (((deleteSession d sid).2).map Prod.fst).Nodup := by
  cases hfind : findSessionEntry d sid with
  | none =>
      unfold deleteSession
      rw [hfind]
      exact ⟨rfl, hN⟩
  | some e =>
      by_cases hend : e.2.status = SessionStatus.ended
      · have hstep : (deleteSession d sid).2 = alErase d e.1 := by
          unfold deleteSession
          rw [hfind]
          simp [hend]
        rw [hstep]
        have hmem : (e.1, e.2) ∈ d := by
          simpa using List.mem_of_find?_eq_some hfind
        have hid : e.2.metadata.id = sid := by
          simpa using List.find?_some hfind
        refine ⟨?_, alErase_nodup hN _⟩
        cases hm : sessionsMax d with
        | none =>
            have hnil : d = [] := sessionsMax_eq_none_iff.mp hm
            rw [hnil] at hmem
            cases hmem
        | some m =>
            obtain ⟨⟨e0, he0, hn0⟩, hub⟩ := sessionsMax_eq_some_iff.mp hm
            have hlt : e.2.session_number < m := hcond _ hmem hid m hm
            rw [sessionsMax_eq_some_iff]
            constructor
            · refine ⟨e0, (mem_alErase_iff hN e.1 e0).mpr ⟨he0, ?_⟩, hn0⟩
              intro hk
              have hpair : (e0.1, e0.2) ∈ d := by simpa using he0
              have h1 := alGet_eq_some_of_mem hN hpair
              rw [hk] at h1
              have h2 := alGet_eq_some_of_mem hN hmem
              have he02 : e0.2 = e.2 := Option.some_inj.mp (h1.symm.trans h2)
              rw [he02] at hn0
              omega
            · intro x hx
              exact hub x ((mem_alErase_iff hN e.1 x).mp hx).1
      · have hstep : (deleteSession d sid).2 = d := by
          unfold deleteSession
          rw [hfind]
          simp [hend]
        rw [hstep]
        exact ⟨rfl, hN⟩

theorem runOps_fresh (campaign_id : String) :
    ∀ (ops : List SessionOp) (d : SessionsDir),
      (d.map Prod.fst).Nodup →
      deletesOnlyEarlier campaign_id ops d →
      ((runOps campaign_id ops d).2.Pairwise (· < ·) ∧
        ∀ n ∈ (runOps campaign_id ops d).2,
          ∀ m, sessionsMax d = some m → m < n)
  | [], d, _, _ => by simp [runOps]
  | op :: ops, d, hN, hdel => by
      cases op with
      | create now nid sb nm nt =>
          simp only [deletesOnlyEarlier] at hdel
          cases hact : getActiveSession d with
          | some s =>
              have heq : createSession now nid campaign_id sb nm nt d
                  = (.error
                      (.valueError "Campaign already has an active/paused session"),
                    d) := by
                unfold createSession
                rw [hact]
              rw [heq] at hdel
              obtain ⟨ih1, ih2⟩ := runOps_fresh campaign_id ops d hN hdel
              constructor
              · simpa [runOps, heq] using ih1
              · intro n hn m hm
                rw [runOps] at hn
                simp only [heq] at hn
                exact ih2 n hn m hm
          | none =>
              obtain ⟨s, d2, heq, hnum, hmax2, hN2⟩ :=
                createSession_ok_spec d hN hact now nid campaign_id sb nm nt
              rw [heq] at hdel
              obtain ⟨ih1, ih2⟩ := runOps_fresh campaign_id ops d2 hN2 hdel
              constructor
              · rw [runOps]
                simp only [heq]
                refine List.Pairwise.cons ?_ ih1
                intro n hn
                exact ih2 n hn s.session_number hmax2
              · intro n hn m hm
                rw [runOps] at hn
                simp only [heq] at hn
                rw [hm] at hnum
                have hnum2 : s.session_number = m + 1 := hnum
                rcases List.mem_cons.mp hn with h | h
                · subst h
                  omega
                · have h1 := ih2 n h s.session_number hmax2
                  omega
      | endOp now sid =>
          simp only [deletesOnlyEarlier] at hdel
          obtain ⟨hpres, hN2⟩ := endSession_preserves_numbers now d sid hN
          obtain ⟨ih1, ih2⟩ :=
            runOps_fresh campaign_id ops (endSession now d sid).2 hN2 hdel
          constructor
          · simpa [runOps] using ih1
          · intro n hn m hm
            rw [runOps] at hn
            refine ih2 n hn m ?_
            rw [hpres]
            exact hm
      | delOp sid =>
          simp only [deletesOnlyEarlier] at hdel
          obtain ⟨hpres, hN2⟩ :=
            deleteSession_preserves_numbers d sid hN hdel.1
          obtain ⟨ih1, ih2⟩ :=
            runOps_fresh campaign_id ops (deleteSession d sid).2 hN2 hdel.2
          constructor
          · simpa [runOps] using ih1
          · intro n hn m hm
            rw [runOps] at hn
            refine ih2 n hn m ?_
            rw [hpres]
            exact hm

/-- C7 counterexample: deleting the campaign's highest-numbered (here:
only) session makes `create_session` hand out an already-used number
again — session 1 is deleted and the next creation is numbered 1, so the
claim's unconditional "never assigned again even if earlier sessions are
deleted" is false on the code. -/
theorem sessionNumber_reused_after_deleting_max :
    sampleEnded.session_number = 1 ∧
    (deleteSession [("session_001.yaml", sampleEnded)] "sid-1")
      = (.ok (), []) ∧
    ∃ s d2,
      createSession dt1 "nid" "c1" "p1" none none [] = (.ok s, d2) ∧
      s.session_number = 1 := by
  exact ⟨rfl, rfl, _, _, rfl, rfl⟩

/-- C7 (amended): `create_session` assigns
`max(existing session_number) + 1` (1 when the campaign has none), and
along any trace of create/end/delete calls in which every deletion targets
an earlier session (one numbered strictly below the campaign's current
maximum), the assigned numbers are strictly increasing — no
`session_number` is ever assigned twice.  (Deleting the highest-numbered
session does allow reuse, per the counterexample.) -/
theorem sessionNumbers_never_reassigned (campaign_id : String)
    (ops : List SessionOp) (d : SessionsDir)
    (hN : (d.map Prod.fst).Nodup)
    (hdel : deletesOnlyEarlier campaign_id ops d) :
    (∀ now nid sb nm nt s d2,
      createSession now nid campaign_id sb nm nt d = (.ok s, d2) →
      s.session_number
        = (match sessionsMax d with | none => 1 | some m => m + 1)) ∧
    (runOps campaign_id ops d).2.Pairwise (· < ·) := by
  constructor
  · intro now nid sb nm nt s d2 heq
    cases hact : getActiveSession d with
    | some s0 =>
        unfold createSession at heq
        rw [hact] at heq
        cases heq
    | none =>
        obtain ⟨s1, d1, heq1, hnum1, _, _⟩ :=
          createSession_ok_spec d hN hact now nid campaign_id sb nm nt
        rw [heq1] at heq
        have hs : s1 = s := by
          have h1 := congrArg Prod.fst heq
          simpa using h1
        rw [← hs]
        exact hnum1
  · exact (runOps_fresh campaign_id ops d hN hdel).1

/-- C7 witness: on a directory with one ended session the trace's creates
succeed, the assigned numbers are the nonempty strictly increasing
`[2, 3]`, the trace really deletes a session (the earlier number 1), and
a concrete create realizes the max-plus-one rule. -/
theorem sessionNumbers_never_reassigned_witness :
    (runOps "c1" demoOps demoDir).2 = [2, 3] ∧
    (∃ s d2, createSession dt0 "s1" "c1" "p1" none none demoDir = (.ok s, d2) ∧
      s.session_number = 2) ∧
    ((∀ now nid sb nm nt s d2,
        createSession now nid "c1" sb nm nt demoDir = (.ok s, d2) →
        s.session_number
          = (match sessionsMax demoDir with | none => 1 | some m => m + 1)) ∧
      (runOps "c1" demoOps demoDir).2.Pairwise (· < ·)) :=
  ⟨by decide, ⟨_, _, rfl, rfl⟩,
    sessionNumbers_never_reassigned "c1" demoOps demoDir (by decide) (by decide)⟩

/-- C2 witness. -/
theorem saveArtifact_failure_leaves_destination_witness :
    (saveArtifact "new" ⟨"session_001", ".yaml"⟩ (some .rename) ""
        [(⟨"session_001", ".yaml"⟩, "old")]).2 = some .rename ∧
    fsGet (saveArtifact "new" ⟨"session_001", ".yaml"⟩ (some .rename) ""
        [(⟨"session_001", ".yaml"⟩, "old")]).1
      (FPath.withSuffix ⟨"session_001", ".yaml"⟩ ".tmp") = none ∧
    fsGet (saveArtifact "new" ⟨"session_001", ".yaml"⟩ (some .rename) ""
        [(⟨"session_001", ".yaml"⟩, "old")]).1 ⟨"session_001", ".yaml"⟩
      = fsGet [(⟨"session_001", ".yaml"⟩, "old")] ⟨"session_001", ".yaml"⟩ :=
  saveArtifact_failure_leaves_destination "new" "" ⟨"session_001", ".yaml"⟩
    [(⟨"session_001", ".yaml"⟩, "old")] .rename (by decide) (by decide)

theorem mem_of_alGet_eq_some {α β : Type} [DecidableEq α]
    {l : List (α × β)} {k : α} {v : β} (h : alGet l k = some v) :
    (k, v) ∈ l := by
  induction l with
  | nil => simp [alGet] at h
  | cons e l ih =>
      by_cases he : e.1 = k
      · rw [alGet] at h
        simp only [he, if_true, Option.some_inj] at h
        have : e = (k, v) := Prod.ext he h
        exact this ▸ List.mem_cons_self e l
      · rw [alGet] at h
        simp only [he, if_false] at h
        exact List.mem_cons_of_mem _ (ih h)

theorem getPlayerActiveSession_some_mem {sys : SystemState} {pid : String}
    {s : Session} (h : getPlayerActiveSession sys pid = some s) :
    ∃ c ∈ sys, ∃ e ∈ c.2.sessions, e.2 = s ∧
      isOpenStatus s ∧ hasActiveParticipant pid s := by
  rw [getPlayerActiveSession] at h
  obtain ⟨c, hc, hcs⟩ := List.exists_of_findSome?_eq_some h
  obtain ⟨e, he, hes⟩ := List.exists_of_findSome?_eq_some hcs
  by_cases hp : isOpenStatus e.2 ∧ hasActiveParticipant pid e.2
  · rw [if_pos hp] at hes
    have hse : e.2 = s := Option.some_inj.mp hes
    exact ⟨c, hc, e, he, hse, hse ▸ hp.1, hse ▸ hp.2⟩
  · rw [if_neg hp] at hes
    cases hes

theorem getPlayerActiveSession_ne_none {sys : SystemState} {pid : String}
    (h : ∃ c ∈ sys, ∃ e ∈ c.2.sessions,
      isOpenStatus e.2 ∧ hasActiveParticipant pid e.2) :
    getPlayerActiveSession sys pid ≠ none := by
  intro hn
  rw [getPlayerActiveSession, List.findSome?_eq_none_iff] at hn
  obtain ⟨c, hc, e, he, hp⟩ := h
  have h2 := hn c hc
  rw [List.findSome?_eq_none_iff] at h2
  have h3 := h2 e he
  rw [if_pos hp] at h3
  cases h3

/-- C4: a player who is an active participant of one active-or-paused
session anywhere in the system cannot join any session with a different
id: `join_session` raises a `ValueError` and changes nothing, and when the
target session is active the error is precisely the
player-already-in-active-session conflict.  Hypotheses: some open session
has the player still joined, every such open session is the one with
`sA`'s id (the claim's "one active participation"), the target session
exists, and its id differs. -/
theorem joinSession_blocked_when_active_elsewhere
    (now : PyDatetime) (sys : SystemState)
    (campaign_id session_id player_id : String)
    (character_id : Option String) (is_gm : Bool)
    (sA : Session) (fnT : String) (sT : Session)
    (hA : ∃ c ∈ sys, ∃ e ∈ c.2.sessions,
      isOpenStatus e.2 ∧ hasActiveParticipant player_id e.2)
    (hallsame : ∀ c ∈ sys, ∀ e ∈ c.2.sessions, isOpenStatus e.2 →
      hasActiveParticipant player_id e.2 →
      e.2.metadata.id = sA.metadata.id)
    (hne : sA.metadata.id ≠ session_id)
    (htarget : findSessionEntry (getCampaign sys campaign_id).sessions
      session_id = some (fnT, sT)) :
    (∃ msg, joinSession now sys campaign_id session_id player_id
        character_id is_gm = (.error (.valueError msg), sys)) ∧
    (sT.status = SessionStatus.active →
      joinSession now sys campaign_id session_id player_id
          character_id is_gm
        = (.error (.valueError "Player is already in active session"), sys)) := by
  obtain ⟨s0, hs0⟩ := Option.ne_none_iff_exists'.mp
    (getPlayerActiveSession_ne_none hA)
  obtain ⟨c0, hc0, e0, he0, hes0, hopen0, hpart0⟩ :=
    getPlayerActiveSession_some_mem hs0
  have hs0id : s0.metadata.id ≠ session_id := by
    have h1 := hallsame c0 hc0 e0 he0 (by rw [hes0]; exact hopen0)
      (by rw [hes0]; exact hpart0)
    rw [hes0] at h1
    rw [h1]
    exact hne
  have hActiveCase : sT.status = SessionStatus.active →
      joinSession now sys campaign_id session_id player_id
          character_id is_gm
        = (.error (.valueError "Player is already in active session"), sys) := by
    intro hst
    unfold joinSession
    simp only [htarget]
    simp [hst, hs0, hs0id]
  constructor
  · by_cases hst : sT.status = SessionStatus.active
    · exact ⟨_, hActiveCase hst⟩
    · refine ⟨"Cannot join session: session is not active", ?_⟩
      unfold joinSession
      simp only [htarget]
      simp [hst]
  · exact hActiveCase

/-- C4 witness. -/
theorem joinSession_blocked_when_active_elsewhere_witness :
    (∃ msg, joinSession dt1 sysFixture "c2" "sid-3" "p1" none false
      = (.error (.valueError msg), sysFixture)) ∧
    (sampleTarget.status = SessionStatus.active →
      joinSession dt1 sysFixture "c2" "sid-3" "p1" none false
        = (.error (.valueError "Player is already in active session"),
            sysFixture)) :=
  joinSession_blocked_when_active_elsewhere dt1 sysFixture "c2" "sid-3" "p1"
    none false sampleActive "session_001.yaml" sampleTarget
    (by decide) (by decide) (by decide) (by decide)

/-- C10 counterexample: the player `p1` is already a still-joined (GM)
participant of the active session, yet calling `join_session` again with
`is_gm = False` and no character does *not* return the session — the
default-character guard fires first and the call raises, because the
already-a-participant check only runs after the membership and character
checks. -/
theorem joinSession_rejoin_can_fail :
    hasActiveParticipant "p1" gmSession = true ∧
    joinSession dt1 sysC10 "c1" "sid-4" "p1" none false
      = (.error (.valueError "Player has no default character assigned"),
          sysC10) := by
  constructor
  · rfl
  · rfl

/-- C10 (amended): when the preliminary guards pass — the player is a
campaign member and either joins as GM, or names exactly the membership's
default character, or names none while the membership has a default — a
repeated `join_session` by a player who is already a still-joined
participant of the (active) target session returns the session unchanged
and performs no write: no second participant entry is ever created.
(When those guards fail the call raises instead, per the
counterexample.) -/
theorem joinSession_idempotent_for_participant
    (now : PyDatetime) (sys : SystemState)
    (campaign_id session_id player_id : String)
    (character_id : Option String) (is_gm : Bool)
    (fn : String) (s : Session) (membership : CampaignMembership)
    (hfind : findSessionEntry (getCampaign sys campaign_id).sessions
      session_id = some (fn, s))
    (hactive : s.status = SessionStatus.active)
    (hpart : hasActiveParticipant player_id s = true)
    (hallsame : ∀ c ∈ sys, ∀ e ∈ c.2.sessions, isOpenStatus e.2 →
      hasActiveParticipant player_id e.2 → e.2.metadata.id = session_id)
    (hmem : getMembership (getCampaign sys campaign_id) player_id
      = some membership)
    (hchar : is_gm = true ∨
      (truthy character_id = true ∧ membership.character_id = character_id) ∨
      (truthy character_id = false ∧ truthy membership.character_id = true)) :
    joinSession now sys campaign_id session_id player_id character_id is_gm
      = (.ok s, sys) := by
  have hnoconflict : ∀ s0,
      getPlayerActiveSession sys player_id = some s0 →
      s0.metadata.id = session_id := by
    intro s0 hs0
    obtain ⟨c0, hc0, e0, he0, hes0, hopen0, hpart0⟩ :=
      getPlayerActiveSession_some_mem hs0
    rw [← hes0]
    exact hallsame c0 hc0 e0 he0 (hes0 ▸ hopen0) (hes0 ▸ hpart0)
  unfold joinSession
  simp only [hfind]
  cases hg : getPlayerActiveSession sys player_id with
  | none =>
      rcases hchar with hgm | ⟨ht, hcid⟩ | ⟨ht, hm⟩
      · simp [hactive, hmem, hgm, hpart]
      · simp [hactive, hmem, ht, hcid, hpart]
      · by_cases hgm2 : is_gm = true
        · simp [hactive, hmem, hgm2, hpart]
        · have hgm3 : is_gm = false := by simpa using hgm2
          simp [hactive, hmem, ht, hm, hgm3, hpart]
  | some s0 =>
      have hid := hnoconflict s0 hg
      rcases hchar with hgm | ⟨ht, hcid⟩ | ⟨ht, hm⟩
      · simp [hactive, hid, hmem, hgm, hpart]
      · simp [hactive, hid, hmem, ht, hcid, hpart]
      · by_cases hgm2 : is_gm = true
        · simp [hactive, hid, hmem, hgm2, hpart]
        · have hgm3 : is_gm = false := by simpa using hgm2
          simp [hactive, hid, hmem, ht, hm, hgm3, hpart]

/-- C10 witness (a GM rejoining). -/
theorem joinSession_idempotent_for_participant_witness :
    joinSession dt1 sysC10 "c1" "sid-4" "p1" none true
      = (.ok gmSession, sysC10) :=
  joinSession_idempotent_for_participant dt1 sysC10 "c1" "sid-4" "p1"
    none true "session_003.yaml" gmSession membershipNoChar
    (by decide) (by decide) (by decide) (by decide) (by decide)
    (Or.inl rfl)

theorem alSet_self {α β : Type} [DecidableEq α]
    {l : List (α × β)} {k : α} {v : β} (h : alGet l k = some v) :
    alSet l k v = l := by
  induction l with
  | nil => simp [alGet] at h
  | cons e l ih =>
      by_cases he : e.1 = k
      · rw [alGet] at h
        simp only [he, if_true, Option.some_inj] at h
        rw [alSet]
        simp only [he, if_true]
        rw [← h, ← he]
      · rw [alGet] at h
        simp only [he, if_false] at h
        rw [alSet]
        simp only [he, if_false]
        rw [ih h]

theorem applyStateChange_empty (sts : ManagerStates) (campaign_id : String)
    (sc : StateChange) (h : statesCharsEmpty sts) :
    (applyStateChange sts campaign_id sc).2 = none ∧
    statesCharsEmpty (applyStateChange sts campaign_id sc).1 := by
  cases hget : alGet sts campaign_id with
  | some st =>
      have hchars : st.characters = [] :=
        h _ (mem_of_alGet_eq_some hget)
      have happly : applyChangeToState st sc = (st, none) := by
        unfold applyChangeToState
        rw [hchars]
        rfl
      have hstep : applyStateChange sts campaign_id sc
          = (managerSetState sts campaign_id st, none) := by
        unfold applyStateChange managerGetState
        rw [hget]
        show (match applyChangeToState st sc with
          | (st', none) => (managerSetState sts campaign_id st', none)
          | (_, some msg) => (sts, some msg)) = _
        rw [happly]
      rw [hstep]
      refine ⟨rfl, ?_⟩
      intro e he
      rcases mem_alSet_sub he with hh | hh
      · rw [hh]
        exact hchars
      · exact h e hh
  | none =>
      have hstep : applyStateChange sts campaign_id sc
          = (managerSetState (sts ++ [(campaign_id, GameState.fresh campaign_id)])
              campaign_id (GameState.fresh campaign_id), none) := by
        unfold applyStateChange managerGetState
        rw [hget]
        rfl
      rw [hstep]
      refine ⟨rfl, ?_⟩
      intro e he
      rcases mem_alSet_sub he with hh | hh
      · rw [hh]
        rfl
      · rcases List.mem_append.mp hh with hh2 | hh2
        · exact h e hh2
        · simp only [List.mem_singleton] at hh2
          rw [hh2]
          rfl

theorem replayChanges_empty (campaign_id : String) :
    ∀ (scs : List StateChange) (sts : ManagerStates),
      statesCharsEmpty sts →
      (replayOnto.replayChanges sts campaign_id scs).2 = none ∧
      statesCharsEmpty (replayOnto.replayChanges sts campaign_id scs).1
  | [], sts, h => ⟨rfl, h⟩
  | sc :: scs, sts, h => by
      obtain ⟨h1, h2⟩ := applyStateChange_empty sts campaign_id sc h
      obtain ⟨ih1, ih2⟩ :=
        replayChanges_empty campaign_id scs
          (applyStateChange sts campaign_id sc).1 h2
      have hpair : applyStateChange sts campaign_id sc
          = ((applyStateChange sts campaign_id sc).1, none) := by
        rw [← h1]
      rw [replayOnto.replayChanges, hpair]
      exact ⟨ih1, ih2⟩

theorem replayOnto_empty (campaign_id : String) :
    ∀ (actions : List GameAction) (sts : ManagerStates),
      statesCharsEmpty sts →
      (replayOnto sts campaign_id actions).2 = none ∧
      statesCharsEmpty (replayOnto sts campaign_id actions).1
  | [], sts, h => ⟨rfl, h⟩
  | a :: actions, sts, h => by
      obtain ⟨h1, h2⟩ :=
        replayChanges_empty campaign_id a.outcome.state_changes sts h
      obtain ⟨ih1, ih2⟩ :=
        replayOnto_empty campaign_id actions
          (replayOnto.replayChanges sts campaign_id a.outcome.state_changes).1 h2
      have hpair : replayOnto.replayChanges sts campaign_id
            a.outcome.state_changes
          = ((replayOnto.replayChanges sts campaign_id
              a.outcome.state_changes).1, none) := by
        rw [← h1]
      rw [replayOnto, hpair]
      exact ⟨ih1, ih2⟩

theorem applyStateChange_id (sts : ManagerStates) (campaign_id : String)
    (sc : StateChange) (h : statesCharsEmpty sts) {st : GameState}
    (hsome : alGet sts campaign_id = some st) :
    applyStateChange sts campaign_id sc = (sts, none) := by
  have hchars : st.characters = [] := h _ (mem_of_alGet_eq_some hsome)
  have happly : applyChangeToState st sc = (st, none) := by
    unfold applyChangeToState
    rw [hchars]
    rfl
  unfold applyStateChange managerGetState
  rw [hsome]
  show (match applyChangeToState st sc with
    | (st', none) => (managerSetState sts campaign_id st', none)
    | (_, some msg) => (sts, some msg)) = _
  rw [happly]
  show (managerSetState sts campaign_id st, none) = (sts, none)
  rw [managerSetState, alSet_self hsome]

theorem replayChanges_id (campaign_id : String) :
    ∀ (scs : List StateChange) (sts : ManagerStates),
      statesCharsEmpty sts → ∀ {st : GameState},
      alGet sts campaign_id = some st →
      replayOnto.replayChanges sts campaign_id scs = (sts, none)
  | [], sts, _, _, _ => rfl
  | sc :: scs, sts, h, st, hsome => by
      have h1 := applyStateChange_id sts campaign_id sc h hsome
      rw [replayOnto.replayChanges, h1]
      exact replayChanges_id campaign_id scs sts h hsome

theorem replayOnto_id (campaign_id : String) :
    ∀ (actions : List GameAction) (sts : ManagerStates),
      statesCharsEmpty sts → ∀ {st : GameState},
      alGet sts campaign_id = some st →
      replayOnto sts campaign_id actions = (sts, none)
  | [], sts, _, _, _ => rfl
  | a :: actions, sts, h, st, hsome => by
      have h1 := replayChanges_id campaign_id a.outcome.state_changes sts h hsome
      rw [replayOnto, h1]
      exact replayOnto_id campaign_id actions sts h hsome

theorem replayFromScratch_fresh (campaign_id : String)
    (actions : List GameAction) :
    replayFromScratch campaign_id actions
      = (GameState.fresh campaign_id, none) := by
  have hempty : statesCharsEmpty
      [(campaign_id, GameState.fresh campaign_id)] := by
    intro e he
    simp only [List.mem_singleton] at he
    rw [he]
    rfl
  have hsome : alGet [(campaign_id, GameState.fresh campaign_id)]
      campaign_id = some (GameState.fresh campaign_id) := by
    simp [alGet]
  rw [replayFromScratch, replayOnto_id campaign_id actions _ hempty hsome]
  show ((managerGetState [(campaign_id, GameState.fresh campaign_id)]
      campaign_id).1, none) = _
  rw [managerGetState, hsome]

/-- C6: `rollback_action` with an `action_id` present at position `i`
truncates the history to the prefix ending at that action (the target is
kept, everything later discarded), and both the returned state and the
state stored for the campaign equal the result of replaying the retained
prefix in original order from a fresh initial `GameState`; an absent
`action_id` raises a not-found `ValueError` and changes nothing.
Hypothesis: the manager's in-memory states carry no characters, the
service invariant (nothing ever inserts into `GameState.characters`). -/
theorem rollbackAction_spec (svc : GSService)
    (campaign_id action_id : String)
    (hchars : statesCharsEmpty svc.states) :
    ((histGet svc.history campaign_id).findIdx?
        (fun a => a.action_id = action_id) = none →
      rollbackAction svc campaign_id action_id
        = (.error (.valueError "Action not found in history"), svc)) ∧
    (∀ i, (histGet svc.history campaign_id).findIdx?
        (fun a => a.action_id = action_id) = some i →
      ∃ svc2,
        rollbackAction svc campaign_id action_id
          = (.ok (GameState.fresh campaign_id), svc2) ∧
        histGet svc2.history campaign_id
          = (histGet svc.history campaign_id).take (i + 1) ∧
        alGet svc2.states campaign_id
          = some (GameState.fresh campaign_id) ∧
        replayFromScratch campaign_id
            ((histGet svc.history campaign_id).take (i + 1))
          = (GameState.fresh campaign_id, none)) := by
  constructor
  · intro hnone
    unfold rollbackAction
    simp only [hnone]
  · intro i hidx
    obtain ⟨h1, h2⟩ := replayOnto_empty campaign_id
      ((histGet svc.history campaign_id).take (i + 1)) svc.states hchars
    have hpair : replayOnto svc.states campaign_id
          ((histGet svc.history campaign_id).take (i + 1))
        = ((replayOnto svc.states campaign_id
            ((histGet svc.history campaign_id).take (i + 1))).1, none) := by
      rw [← h1]
    refine ⟨⟨managerSetState
        (replayOnto svc.states campaign_id
          ((histGet svc.history campaign_id).take (i + 1))).1 campaign_id
        (GameState.fresh campaign_id),
      histSet svc.history campaign_id
        ((histGet svc.history campaign_id).take (i + 1))⟩,
      ?_, ?_, ?_, replayFromScratch_fresh campaign_id _⟩
    · unfold rollbackAction
      simp only [hidx]
      rw [hpair]
    · show histGet (histSet svc.history campaign_id _) campaign_id = _
      unfold histGet histSet
      rw [alGet_alSet_self]
    · show alGet (managerSetState _ campaign_id _) campaign_id = _
      unfold managerSetState
      rw [alGet_alSet_self]

/-- C6 witness. -/
theorem rollbackAction_spec_witness :
    ∃ svc2,
      rollbackAction svcFixture "c1" "a1"
        = (.ok (GameState.fresh "c1"), svc2) ∧
      histGet svc2.history "c1"
        = (histGet svcFixture.history "c1").take (0 + 1) ∧
      alGet svc2.states "c1" = some (GameState.fresh "c1") ∧
      replayFromScratch "c1" ((histGet svcFixture.history "c1").take (0 + 1))
        = (GameState.fresh "c1", none) :=
  (rollbackAction_spec svcFixture "c1" "a1"
    (fun e he => absurd he (List.not_mem_nil e))).2 0 rfl

theorem digitVal_digitChar {k : Nat} (h : k ≤ 9) :
    digitVal? (digitChar k) = some k := by
  interval_cases k <;> decide

theorem digitChar_ne_Z {k : Nat} (h : k ≤ 9) : digitChar k ≠ 'Z' := by
  interval_cases k <;> decide

theorem readDigits_cons {c : Char} {v : Nat} (h : digitVal? c = some v)
    (k acc : Nat) (l : List Char) :
    readDigitsExact (k + 1) acc (c :: l)
      = readDigitsExact k (acc * 10 + v) l := by
  rw [readDigitsExact, h]

theorem parse2_pad2 {n : Nat} (h : n ≤ 99) (r : List Char) :
    readDigitsExact 2 0 (pad2L n ++ r) = some (n, r) := by
  have h1 : n / 10 ≤ 9 := by omega
  have h2 : n % 10 ≤ 9 := by omega
  rw [pad2L]
  simp only [List.cons_append, List.nil_append]
  rw [readDigits_cons (digitVal_digitChar h1),
    readDigits_cons (digitVal_digitChar h2), readDigitsExact]
  have : (0 * 10 + n / 10) * 10 + n % 10 = n := by omega
  rw [this]

theorem parse4_pad4 {n : Nat} (h : n ≤ 9999) (r : List Char) :
    readDigitsExact 4 0 (pad4L n ++ r) = some (n, r) := by
  have h1 : n / 1000 % 10 ≤ 9 := by omega
  have h2 : n / 100 % 10 ≤ 9 := by omega
  have h3 : n / 10 % 10 ≤ 9 := by omega
  have h4 : n % 10 ≤ 9 := by omega
  rw [pad4L]
  simp only [List.cons_append, List.nil_append]
  rw [readDigits_cons (digitVal_digitChar h1),
    readDigits_cons (digitVal_digitChar h2),
    readDigits_cons (digitVal_digitChar h3),
    readDigits_cons (digitVal_digitChar h4), readDigitsExact]
  have : (((0 * 10 + n / 1000 % 10) * 10 + n / 100 % 10) * 10
        + n / 10 % 10) * 10 + n % 10 = n := by omega
  rw [this]

theorem readFracAux_digit {c : Char} {v : Nat} (h : digitVal? c = some v)
    (fuel acc cnt : Nat) (l : List Char) :
    readFracAux (fuel + 1) acc cnt (c :: l)
      = readFracAux fuel (acc * 10 + v) (cnt + 1) l := by
  rw [readFracAux, h]

theorem skipDigits_head {l : List Char}
    (h : ∀ c, l.head? = some c → digitVal? c = none) :
    skipDigits l = l := by
  cases l with
  | nil => rfl
  | cons c v =>
      rw [skipDigits, h c rfl]
      rfl

theorem readFrac_pad6 {u : Nat} (h : u ≤ 999999) {r : List Char}
    (hr : ∀ c, r.head? = some c → digitVal? c = none) :
    readFrac (pad6L u ++ r) = some (u, r) := by
  have h1 : u / 100000 % 10 ≤ 9 := by omega
  have h2 : u / 10000 % 10 ≤ 9 := by omega
  have h3 : u / 1000 % 10 ≤ 9 := by omega
  have h4 : u / 100 % 10 ≤ 9 := by omega
  have h5 : u / 10 % 10 ≤ 9 := by omega
  have h6 : u % 10 ≤ 9 := by omega
  have haux : readFracAux 6 0 0 (pad6L u ++ r)
      = ((((((0 * 10 + u / 100000 % 10) * 10 + u / 10000 % 10) * 10
          + u / 1000 % 10) * 10 + u / 100 % 10) * 10 + u / 10 % 10) * 10
          + u % 10, 6, r) := by
    rw [pad6L]
    simp only [List.cons_append, List.nil_append]
    rw [readFracAux_digit (digitVal_digitChar h1),
      readFracAux_digit (digitVal_digitChar h2),
      readFracAux_digit (digitVal_digitChar h3),
      readFracAux_digit (digitVal_digitChar h4),
      readFracAux_digit (digitVal_digitChar h5),
      readFracAux_digit (digitVal_digitChar h6), readFracAux]
  rw [readFrac, haux]
  have hval : (((((0 * 10 + u / 100000 % 10) * 10 + u / 10000 % 10) * 10
      + u / 1000 % 10) * 10 + u / 100 % 10) * 10 + u / 10 % 10) * 10
      + u % 10 = u := by omega
  simp only [hval]
  rw [skipDigits_head hr]
  rfl

theorem readOffsetEnd_utc :
    readOffsetEnd ['+', '0', '0', ':', '0', '0'] = some (some 0) := by
  decide

theorem expectCh_self (c : Char) (l : List Char) :
    expectCh c (c :: l) = some l := by
  rw [expectCh]
  simp

theorem daysInMonth_le (y m : Nat) : daysInMonth y m ≤ 31 := by
  unfold daysInMonth
  split_ifs <;> omega

theorem readTimeTail_format {h m s u : Nat} (hh : h ≤ 23) (hm : m ≤ 59)
    (hs : s ≤ 59) (hu : u ≤ 999999)
    {off : List Char} {ov : Option Int}
    (hcase : (off = [] ∧ ov = none) ∨
      (off = ['+', '0', '0', ':', '0', '0'] ∧ ov = some 0)) :
    readTimeTail (pad2L h ++ ':' :: (pad2L m ++ ':' :: (pad2L s ++
        ((if u = 0 then [] else '.' :: pad6L u) ++ off))))
      = some (h, m, s, u, ov) := by
  have hoffhead : ∀ c, off.head? = some c → digitVal? c = none := by
    rcases hcase with ⟨rfl, _⟩ | ⟨rfl, _⟩
    · intro c hc
      cases hc
    · intro c hc
      simp only [List.head?_cons, Option.some_inj] at hc
      rw [← hc]
      decide
  have hoffread : readOffsetEnd off = some ov := by
    rcases hcase with ⟨rfl, rfl⟩ | ⟨rfl, rfl⟩
    · rfl
    · exact readOffsetEnd_utc
  have hoffdot : ∀ l6, off = '.' :: l6 → False := by
    rcases hcase with ⟨rfl, _⟩ | ⟨rfl, _⟩ <;> intro l6 hx <;> cases hx
  rw [readTimeTail, parse2_pad2 (show h ≤ 99 by omega)]
  simp only [Option.bind_eq_bind, Option.some_bind, hh, if_true]
  rw [parse2_pad2 (show m ≤ 99 by omega)]
  simp only [Option.bind_eq_bind, Option.some_bind, hm, if_true]
  rw [parse2_pad2 (show s ≤ 99 by omega)]
  simp only [Option.bind_eq_bind, Option.some_bind, hs, if_true]
  by_cases hu0 : u = 0
  · subst hu0
    rcases hcase with ⟨rfl, rfl⟩ | ⟨rfl, rfl⟩
    · rfl
    · rfl
  · rw [if_neg hu0]
    simp only [List.cons_append]
    rw [readFrac_pad6 hu hoffhead]
    simp only [Option.bind_eq_bind, Option.some_bind]
    rw [hoffread]
    rfl

theorem fromIsoL_format {d : PyDatetime} (hr : dtRanges d)
    {off : List Char} {ov : Option Int}
    (hcase : (off = [] ∧ ov = none) ∨
      (off = ['+', '0', '0', ':', '0', '0'] ∧ ov = some 0)) :
    fromIsoL (pad4L d.year ++ '-' :: (pad2L d.month ++ '-' :: (pad2L d.day ++
        'T' :: (pad2L d.hour ++ ':' :: (pad2L d.minute ++ ':' :: (pad2L d.second ++
        ((if d.microsecond = 0 then [] else '.' :: pad6L d.microsecond) ++ off)))))))
      = some ⟨d.year, d.month, d.day, d.hour, d.minute, d.second,
          d.microsecond, ov⟩ := by
  obtain ⟨hy1, hy2, hmo1, hmo2, hd1, hd2, hh, hmi, hs, hu⟩ := hr
  rw [fromIsoL, parse4_pad4 hy2]
  simp only [Option.bind_eq_bind, Option.some_bind]
  rw [expectCh_self]
  simp only [Option.some_bind]
  rw [parse2_pad2 (show d.month ≤ 99 by omega)]
  simp only [Option.some_bind]
  rw [expectCh_self]
  simp only [Option.some_bind]
  rw [parse2_pad2 (show d.day ≤ 99 by
    have := daysInMonth_le d.year d.month
    omega)]
  simp only [Option.some_bind]
  rw [if_pos ⟨hy1, hmo1, hmo2, hd1, hd2⟩]
  rw [if_pos (Or.inl trivial : True ∨ ('T' : Char) = ' ')]
  rw [readTimeTail_format hh hmi hs hu hcase]
  rfl

theorem replaceZL_append (l1 l2 : List Char) :
    replaceZL (l1 ++ l2) = replaceZL l1 ++ replaceZL l2 := by
  induction l1 with
  | nil => rfl
  | cons c l ih =>
      simp only [List.cons_append, replaceZL, List.append_eq, ih,
        List.append_assoc]

theorem replaceZL_no_Z {l : List Char} (h : ∀ c ∈ l, c ≠ 'Z') :
    replaceZL l = l := by
  induction l with
  | nil => rfl
  | cons c l ih =>
      rw [replaceZL, if_neg (h c (List.mem_cons_self c l)),
        ih (fun x hx => h x (List.mem_cons_of_mem c hx))]
      rfl

theorem pad2L_no_Z {n : Nat} (h : n ≤ 99) : ∀ c ∈ pad2L n, c ≠ 'Z' := by
  intro c hc
  rw [pad2L] at hc
  rcases List.mem_cons.mp hc with hx | hx
  · exact hx ▸ digitChar_ne_Z (by omega)
  · rcases List.mem_cons.mp hx with hx2 | hx2
    · exact hx2 ▸ digitChar_ne_Z (by omega)
    · cases hx2

theorem pad4L_no_Z (n : Nat) : ∀ c ∈ pad4L n, c ≠ 'Z' := by
  intro c hc
  rw [pad4L] at hc
  simp only [List.mem_cons, List.not_mem_nil, or_false] at hc
  rcases hc with hx | hx | hx | hx <;>
    exact hx ▸ digitChar_ne_Z (by omega)

theorem pad6L_no_Z (n : Nat) : ∀ c ∈ pad6L n, c ≠ 'Z' := by
  intro c hc
  rw [pad6L] at hc
  simp only [List.mem_cons, List.not_mem_nil, or_false] at hc
  rcases hc with hx | hx | hx | hx | hx | hx <;>
    exact hx ▸ digitChar_ne_Z (by omega)

theorem no_Z_append {l1 l2 : List Char} (h1 : ∀ c ∈ l1, c ≠ 'Z')
    (h2 : ∀ c ∈ l2, c ≠ 'Z') : ∀ c ∈ l1 ++ l2, c ≠ 'Z' := by
  intro c hc
  rcases List.mem_append.mp hc with h | h
  · exact h1 c h
  · exact h2 c h

theorem no_Z_cons {x : Char} {l : List Char} (hx : x ≠ 'Z')
    (h : ∀ c ∈ l, c ≠ 'Z') : ∀ c ∈ x :: l, c ≠ 'Z' := by
  intro c hc
  rcases List.mem_cons.mp hc with h2 | h2
  · exact h2 ▸ hx
  · exact h c h2

theorem no_Z_nil : ∀ c ∈ ([] : List Char), c ≠ 'Z' := by
  intro c hc
  cases hc

/-- The serialized clock-and-date body (everything before the offset tail)
contains no `Z`. -/
theorem formatBody_no_Z {d : PyDatetime} (hr : dtRanges d) :
    ∀ c ∈ pad4L d.year ++ '-' :: (pad2L d.month ++ '-' :: (pad2L d.day ++
        'T' :: (pad2L d.hour ++ ':' :: (pad2L d.minute ++ ':' :: (pad2L d.second ++
        (if d.microsecond = 0 then [] else '.' :: pad6L d.microsecond)))))),
      c ≠ 'Z' := by
  obtain ⟨hy1, hy2, hmo1, hmo2, hd1, hd2, hh, hmi, hs, hu⟩ := hr
  have hfrac : ∀ c ∈ (if d.microsecond = 0 then []
      else '.' :: pad6L d.microsecond), c ≠ 'Z' := by
    by_cases hu0 : d.microsecond = 0
    · rw [if_pos hu0]
      exact no_Z_nil
    · rw [if_neg hu0]
      exact no_Z_cons (by decide) (pad6L_no_Z _)
  exact no_Z_append (pad4L_no_Z _) (no_Z_cons (by decide)
    (no_Z_append (pad2L_no_Z (by omega)) (no_Z_cons (by decide)
      (no_Z_append (pad2L_no_Z (by
          have := daysInMonth_le d.year d.month
          omega)) (no_Z_cons (by decide)
        (no_Z_append (pad2L_no_Z (by omega)) (no_Z_cons (by decide)
          (no_Z_append (pad2L_no_Z (by omega)) (no_Z_cons (by decide)
            (no_Z_append (pad2L_no_Z (by omega)) hfrac))))))))))

/-- The serialized form of a storable datetime is sniffed back to exactly
the same datetime by `_parse_datetime_strings`. -/
theorem parse_format {d : PyDatetime} (h : storableDt d) :
    parseDatetimeString (formatDt d) = some d := by
  obtain ⟨hr, hoff⟩ := h
  show tryParseDatetimeL (formatDtL d) = some d
  obtain ⟨y, mo, dd, hh, mi, ss, us, off⟩ := d
  obtain ⟨hy1, hy2, hmo1, hmo2, hd1, hd2, hhh, hmi2, hs2, hu2⟩ := hr
  have hr2 : dtRanges ⟨y, mo, dd, hh, mi, ss, us, off⟩ :=
    ⟨hy1, hy2, hmo1, hmo2, hd1, hd2, hhh, hmi2, hs2, hu2⟩
  have hTmem : 'T' ∈ formatDtL ⟨y, mo, dd, hh, mi, ss, us, off⟩ := by
    rw [formatDtL]
    simp
  have hcontains : (formatDtL ⟨y, mo, dd, hh, mi, ss, us, off⟩).contains 'T'
      = true := List.elem_iff.mpr hTmem
  have hlen : (formatDtL ⟨y, mo, dd, hh, mi, ss, us, off⟩).length > 10 := by
    rw [formatDtL]
    by_cases hu0 : us = 0 <;>
      simp [hu0, pad4L, pad2L, pad6L, formatOffsetL]
  rcases hoff with hoffn | hoffz
  · simp only at hoffn
    subst hoffn
    have hform : formatDtL ⟨y, mo, dd, hh, mi, ss, us, none⟩
        = pad4L y ++ '-' :: (pad2L mo ++ '-' :: (pad2L dd ++ 'T' ::
          (pad2L hh ++ ':' :: (pad2L mi ++ ':' :: (pad2L ss ++
          ((if us = 0 then [] else '.' :: pad6L us) ++ [])))))) := by
      rw [formatDtL]
      simp [List.append_assoc, formatOffsetL]
    have hlast : ¬ ((formatDtL ⟨y, mo, dd, hh, mi, ss, us, none⟩).getLast?
        = some 'Z') := by
      rw [hform]
      by_cases hu0 : us = 0
      · simp [hu0, pad2L]
        intro hx
        exact absurd hx (digitChar_ne_Z (by omega))
      · simp [hu0, pad2L, pad6L]
        intro hx
        exact absurd hx (digitChar_ne_Z (by omega))
    rw [tryParseDatetimeL, if_pos ⟨hcontains, hlen⟩, if_neg hlast, hform]
    have := fromIsoL_format (d := ⟨y, mo, dd, hh, mi, ss, us, none⟩) hr2
      (Or.inl ⟨rfl, rfl⟩)
    simpa [List.append_assoc] using this
  · simp only at hoffz
    subst hoffz
    have hbodyZ : ∀ c ∈ pad4L y ++ '-' :: (pad2L mo ++ '-' :: (pad2L dd ++
        'T' :: (pad2L hh ++ ':' :: (pad2L mi ++ ':' :: (pad2L ss ++
        (if us = 0 then [] else '.' :: pad6L us)))))), c ≠ 'Z' :=
      formatBody_no_Z (d := ⟨y, mo, dd, hh, mi, ss, us, some 0⟩) hr2
    have hform : formatDtL ⟨y, mo, dd, hh, mi, ss, us, some 0⟩
        = (pad4L y ++ '-' :: (pad2L mo ++ '-' :: (pad2L dd ++ 'T' ::
          (pad2L hh ++ ':' :: (pad2L mi ++ ':' :: (pad2L ss ++
          (if us = 0 then [] else '.' :: pad6L us))))))) ++ ['Z'] := by
      rw [formatDtL]
      simp [List.append_assoc, formatOffsetL]
    have hlast : (formatDtL ⟨y, mo, dd, hh, mi, ss, us, some 0⟩).getLast?
        = some 'Z' := by
      rw [hform]
      exact List.getLast?_concat _
    have hrepl : replaceZL (formatDtL ⟨y, mo, dd, hh, mi, ss, us, some 0⟩)
        = (pad4L y ++ '-' :: (pad2L mo ++ '-' :: (pad2L dd ++ 'T' ::
          (pad2L hh ++ ':' :: (pad2L mi ++ ':' :: (pad2L ss ++
          (if us = 0 then [] else '.' :: pad6L us))))))) ++
          ['+', '0', '0', ':', '0', '0'] := by
      rw [hform, replaceZL_append, replaceZL_no_Z hbodyZ]
      rfl
    have hiso : fromIsoL (replaceZL (formatDtL ⟨y, mo, dd, hh, mi, ss, us, some 0⟩))
        = some ⟨y, mo, dd, hh, mi, ss, us, some 0⟩ := by
      rw [hrepl]
      have h3 := fromIsoL_format (d := ⟨y, mo, dd, hh, mi, ss, us, some 0⟩) hr2
        (Or.inr ⟨rfl, rfl⟩)
      simpa [List.append_assoc] using h3
    rw [tryParseDatetimeL, if_pos ⟨hcontains, hlen⟩, if_pos hlast, hiso]

/-! Assembling the artifact-level round trip (C3, amended). -/

theorem ok_bind {ε α β : Type} (a : α) (f : α → Except ε β) :
    (Except.ok a : Except ε α) >>= f = f a := rfl

theorem parseDtStrings_bool (b : Bool) :
    parseDtStrings (.ybool b) = .pbool b := by
  rw [parseDtStrings]

theorem parseDtStrings_int (n : Int) :
    parseDtStrings (.yint n) = .pint n := by
  rw [parseDtStrings]

theorem parseDtStrings_safe {s : String} (h : safeStr s) :
    parseDtStrings (.ystr s) = .pstr s := by
  rw [parseDtStrings, h]

theorem parseDtStrings_dt {d : PyDatetime} (h : storableDt d) :
    parseDtStrings (yDt d) = .pdt d := by
  rw [yDt, parseDtStrings, parse_format h]

theorem ensureUtc_utc {d : PyDatetime} (h : d.utcOffset = some 0) :
    ensureUtc d = d := by
  obtain ⟨y, mo, dd, hh, mi, ss, us, off⟩ := d
  simp only at h
  subst h
  rfl

theorem vStrMin1_roundtrip {s : String} (hne : s ≠ "") (hsafe : safeStr s) :
    vStrMin1 (parseDtStrings (.ystr s)) = .ok s := by
  rw [parseDtStrings_safe hsafe, vStrMin1]
  show vStr (.pstr s) >>= _ = _
  rw [vStr, ok_bind, if_neg hne]

theorem vOptStr_roundtrip {o : Option String} (h : optionAll safeStr o) :
    vOptStr (parseDtStrings (yOptStr o)) = .ok o := by
  cases o with
  | none => rfl
  | some s =>
      rw [yOptStr, parseDtStrings_safe h]
      rfl

theorem vUtcDt_roundtrip {t : PyDatetime} (h : utcDtOk t) :
    vUtcDt (parseDtStrings (yDt t)) = .ok t := by
  rw [parseDtStrings_dt ⟨h.1, Or.inr h.2⟩]
  show Except.ok (ensureUtc t) = .ok t
  rw [ensureUtc_utc h.2]

theorem vOptUtcDt_roundtrip {o : Option PyDatetime} (h : optionAll utcDtOk o) :
    vOptUtcDt (parseDtStrings (yOptDt o)) = .ok o := by
  cases o with
  | none => rfl
  | some t =>
      have ht : utcDtOk t := h
      rw [yOptDt, parseDtStrings_dt ⟨ht.1, Or.inr ht.2⟩]
      show Except.ok (some (ensureUtc t)) = .ok (some t)
      rw [ensureUtc_utc ht.2]

theorem status_roundtrip (st : SessionStatus) :
    vStatus (parseDtStrings (.ystr (statusStr st))) = .ok st := by
  cases st <;> rfl

theorem metadata_roundtrip {m : ArtifactMetadata} (h : wfMetadata m) :
    metadataValidate (parseDtStrings (metadataToJson m)) = .ok m := by
  obtain ⟨h1, h2, h3, h4, h5⟩ := h
  obtain ⟨mid, mc, mu, mv, msv⟩ := m
  rw [metadataToJson, parseDtStrings, parseDtStringsFields,
    parseDtStringsFields, parseDtStringsFields, parseDtStringsFields,
    parseDtStringsFields, parseDtStringsFields]
  rw [parseDtStrings_safe h1, parseDtStrings_dt h2, parseDtStrings_dt h3,
    parseDtStrings_safe h5]
  simp only at h4
  simp [metadataValidate, getField, vStr, vDt, vIntGe, h4, ok_bind,
    parseDtStrings]

theorem participant_roundtrip {p : SessionParticipant}
    (h : wfParticipant p) :
    participantValidate (parseDtStrings (participantToJson p)) = .ok p := by
  obtain ⟨h1, h2, h3, h4, h5⟩ := h
  obtain ⟨pid, chid, ja, la, gm⟩ := p
  simp only at h1 h2 h3 h4 h5
  rw [participantToJson, parseDtStrings, parseDtStringsFields,
    parseDtStringsFields, parseDtStringsFields, parseDtStringsFields,
    parseDtStringsFields, parseDtStringsFields]
  simp [participantValidate, getField, vBool, ok_bind, parseDtStrings_bool,
    vStrMin1_roundtrip h1 h2, vOptStr_roundtrip h3, vUtcDt_roundtrip h4,
    vOptUtcDt_roundtrip h5]

theorem participants_roundtrip :
    ∀ {ps : List SessionParticipant}, (∀ p ∈ ps, wfParticipant p) →
      participantsValidate (parseDtStringsList (ps.map participantToJson))
        = .ok ps
  | [], _ => rfl
  | p :: ps, h => by
      rw [List.map_cons, parseDtStringsList, participantsValidate,
        participant_roundtrip (h p (List.mem_cons_self p ps)), ok_bind,
        participants_roundtrip (fun q hq => h q (List.mem_cons_of_mem p hq)),
        ok_bind]

end RollPlayer
